import Mathlib

/-!
Verification development for the `logi-master` repository.

The file shallowly embeds the two cores of the program:
  * the transactional organizer and its rollback engine (`src/organize.py`,
    `src/utils.py`), and
  * the streaming scanner (`src/src/scanner/walker.py`, `runner.py`,
    `state.py`, `models.py`).

Modelling conventions:
  * the filesystem is a finite association list from path strings to file
    contents; directories are not materialised (`ensure_directory` is a
    no-op on this model, faithful because the code never reads directories
    as files);
  * machine effects that the code delegates to the standard library are
    parameters of the embedding: the content-hash hex digest
    (`blake3`/`hashlib`), `fnmatch` pattern matching, `sha256` of a path
    string, the monotonic clock, and the outcome of an attempted
    `shutil.move`/`shutil.copy2` call (success, `shutil.Error`, or another
    `OSError`);
  * `time.time()` timestamps written into journal records are modelled by a
    single parameter `ts` (their values never influence control flow);
  * fallible code returns `Except`; an uncaught Python exception is an
    `Except.error`.
-/

namespace LogiMaster

/-! ## Filesystem model

A filesystem is an association list from absolute path strings to file
contents.  Keys are kept unique by construction (`fsInsert` erases first). -/

abbrev FS := List (String × String)

/-- Content of the file at path `k`, `none` when no such file exists. -/
def fsLookup : FS → String → Option String
  | [], _ => none
  | (k2, v) :: rest, k => if k2 = k then some v else fsLookup rest k

/-- Remove the file at path `k` (no-op when absent). -/
def fsErase (fs : FS) (k : String) : FS :=
  fs.filter (fun e => e.1 ≠ k)

/-- Create or overwrite the file at path `k` with content `v`. -/
def fsInsert (fs : FS) (k : String) (v : String) : FS :=
  (k, v) :: fsErase fs k

/-- `fsExists fs k` mirrors `Path(k).exists()` on the model. -/
def fsExists (fs : FS) (k : String) : Bool :=
  (fsLookup fs k).isSome

/-- Model of `shutil.move(p, q)` for plain files: the file at `p` is
renamed to `q`, silently replacing any file previously at `q` (POSIX
rename semantics).  No-op when `p` does not exist. -/
def fsMove (fs : FS) (p : String) (q : String) : FS :=
  match fsLookup fs p with
  | none => fs
  | some v => fsInsert (fsErase fs p) q v

theorem fsLookup_fsErase (fs : FS) (k k2 : String) :
    fsLookup (fsErase fs k) k2 = if k2 = k then none else fsLookup fs k2 := by
  induction fs with
  | nil => simp [fsErase, fsLookup]
  | cons e rest ih =>
    by_cases h1 : e.1 = k
    · by_cases h2 : k2 = k
      · simp_all [fsErase, fsLookup, List.filter]
      · have h3 : ¬ e.1 = k2 := fun h => h2 (h.symm.trans h1)
        simp_all [fsErase, fsLookup, List.filter]
    · by_cases h2 : e.1 = k2
      · have h3 : ¬ k2 = k := fun hk => h1 (hk ▸ h2)
        simp_all [fsErase, fsLookup, List.filter]
      · simp_all [fsErase, fsLookup, List.filter]

theorem fsLookup_fsInsert (fs : FS) (k v k2) :
    fsLookup (fsInsert fs k v) k2 = if k = k2 then some v else fsLookup fs k2 := by
  by_cases h : k = k2
  · simp [fsInsert, fsLookup, h]
  · have h2 : ¬ k2 = k := fun hk => h hk.symm
    simp [fsInsert, fsLookup, h, fsLookup_fsErase, h2]

/-! ## `utils.py`: journal records and journal file -/

/-- `utils.JournalRecord` (dataclass).  `details` is an ordered list of
string key/value pairs (every `details` dict built by `organize.py` holds
string values); the Python falsy test `if self.details:` corresponds to a
non-empty list. -/
structure JournalRecord where
  timestamp_ms : Nat
  code : String
  source : String
  destination : Option String := none
  details : List (String × String) := []
  deriving DecidableEq

/-- JSON string escaping as performed by `json.dumps(..., ensure_ascii=False)`
for the characters that can occur in this code base (quote, backslash and
the shorthand control characters). -/
def jsonEscape (s : String) : String :=
  String.mk (s.data.foldr (fun c acc =>
    if c = '\"' then '\\' :: '\"' :: acc
    else if c = '\\' then '\\' :: '\\' :: acc
    else if c = '\n' then '\\' :: 'n' :: acc
    else if c = '\t' then '\\' :: 't' :: acc
    else if c = '\r' then '\\' :: 'r' :: acc
    else c :: acc) [])

/-- One `"key": "value"` member with the default `json.dumps` separators. -/
def jsonStrMember (k v : String) : String :=
  ", \"" ++ jsonEscape k ++ "\": \"" ++ jsonEscape v ++ "\""

/-- `JournalRecord.to_json`: keys in insertion order `ts`, `code`, `src`,
then `dst` when present, then the flattened `details` pairs. -/
def JournalRecord.to_json (r : JournalRecord) : String :=
  "\x7b\"ts\": " ++ toString r.timestamp_ms ++
    ", \"code\": \"" ++ jsonEscape r.code ++ "\"" ++
    ", \"src\": \"" ++ jsonEscape r.source ++ "\"" ++
    (match r.destination with
     | some d => jsonStrMember "dst" d
     | none => "") ++
    String.join (r.details.map (fun kv => jsonStrMember kv.1 kv.2)) ++
    "\x7d"

/-- `utils.append_journal`: the journal file is a list of physical lines;
appending writes one `to_json` line per record at the end. -/
def append_journal (file : List String) (records : List JournalRecord) : List String :=
  file ++ records.map JournalRecord.to_json

/-! ## Path helpers (`pathlib` fragment used by the code) -/

/-- `parent / name` for the posix-style path strings of this model. -/
def pathJoin (d n : String) : String := d ++ "/" ++ n

/-- Index after the last occurrence of `c`, 0 when absent (`str.rfind + 1`). -/
def lastIdxAux (c : Char) : List Char → Nat → Nat → Nat
  | [], _, best => best
  | x :: rest, pos, best =>
      lastIdxAux c rest (pos + 1) (if x = c then pos + 1 else best)

/-- `PurePath(name).suffix`: the part from the last dot when that dot is
neither the first nor past-the-end character, else the empty string. -/
def pySuffix (name : String) : String :=
  let i := lastIdxAux '.' name.data 0 0
  if 1 < i ∧ i < name.length then String.mk (name.data.drop (i - 1)) else ""

/-- `PurePath(name).stem`: the name with `pySuffix` removed. -/
def pyStem (name : String) : String :=
  let i := lastIdxAux '.' name.data 0 0
  if 1 < i ∧ i < name.length then String.mk (name.data.take (i - 1)) else name

/-- `PurePath(p).name`: the component after the last separator. -/
def pyName (p : String) : String :=
  String.mk (p.data.drop (lastIdxAux '/' p.data 0 0))

/-! ## `src/scanner/models.py`: data model shared by scanner and organizer -/

/-- `src.scanner.models.FileRecord` (also the record type consumed by
`organize.py` through `scan.py`). -/
structure FileRecord where
  path : String
  safe_id : String
  name : String
  ext : String
  size : Nat
  mtime : Nat
  hint : String := ""
  bucket : Option String := none
  error : Option String := none
  deriving DecidableEq

/-- `src.scanner.models.ScanError`. -/
structure ScanError where
  path : String
  message : String
  deriving DecidableEq

/-! ## `organize.py`: the transactional organizer -/

/-- The `mode` literal of `OrganizeConfig`. -/
inductive Mode where
  | move
  | copy
  deriving DecidableEq

/-- The `conflict` literal of `OrganizeConfig`.  `skipPolicy` renders the
string `"skip"`. -/
inductive Conflict where
  | version
  | skipPolicy
  | overwrite
  deriving DecidableEq

/-- `organize.OrganizeConfig`. -/
structure OrganizeConfig where
  target_root : String
  mode : Mode
  conflict : Conflict
  schema_paths : List String
  deriving DecidableEq

/-- One project entry of the `projects` payload: the dict fields read by
`organize_projects` (`project_label`, `project_id`, `doc_ids`).  A present
key maps to `some`; a missing key to `none`. -/
structure Project where
  project_label : Option String := none
  project_id : Option String := none
  doc_ids : List String := []
  deriving DecidableEq

/-- Python `a or b` for an optional string `a`: an absent or empty string
is falsy. -/
def pyOrStr (a : Option String) (b : String) : String :=
  match a with
  | some s => if s = "" then b else s
  | none => b

/-- `project.get("project_label") or project.get("project_id") or "misc"`. -/
def projectLabel (p : Project) : String :=
  pyOrStr p.project_label (pyOrStr p.project_id "misc")

/-- `by_path = {record.path: record for record in scored_records}` followed
by `by_path.get(str(src))`: on duplicate paths the later record wins, as in
a Python dict comprehension. -/
def byPathGet (scored : List FileRecord) (p : String) : Option FileRecord :=
  scored.reverse.find? (fun r => r.path = p)

/-- `record.bucket if record and record.bucket else "misc"` (an absent
record, a `None` bucket and an empty-string bucket all fall to `"misc"`). -/
def bucketOf (record : Option FileRecord) : String :=
  match record with
  | some r =>
      match r.bucket with
      | some b => if b = "" then "misc" else b
      | none => "misc"
  | none => "misc"

/-- `utils.blake3_path_hash`: the first 7 hex characters of a content hash
of the file at `p`.  The digest function itself (`blake3`/`sha256`) is an
external library and enters the model as the parameter `hashHex` mapping
file content to its hex digest; the `[:7]` truncation is the code's. -/
def blake3_path_hash (hashHex : String → String) (fs : FS) (p : String) : String :=
  match fsLookup fs p with
  | some content => (hashHex content).take 7
  | none => (hashHex "").take 7

/-- The `while candidate.exists()` search of `organize._versioned_name`,
with an explicit fuel.  The counter candidates for distinct counters are
distinct names, so `fs.length + 1` iterations always reach a free name and
the fuel-exhaustion branch (which returns the last candidate, as if free)
is unreachable; it exists only to make the recursion total. -/
def versionedLoop (fs : FS) (dst_dir stem suffix ext : String) :
    Nat → Nat → String
  | 0, counter => pathJoin dst_dir (stem ++ "__" ++ suffix ++ "_" ++ toString counter ++ ext)
  | fuel + 1, counter =>
      let candidate := pathJoin dst_dir (stem ++ "__" ++ suffix ++ "_" ++ toString counter ++ ext)
      if fsExists fs candidate then
        versionedLoop fs dst_dir stem suffix ext fuel (counter + 1)
      else candidate

/-- `organize._versioned_name`: suffix the stem with `__<suffix>`, then
append `_1`, `_2`, … while the candidate name is taken. -/
def _versioned_name (fs : FS) (dst_dir name suffix : String) : String :=
  let stem := pyStem name
  let ext := pySuffix name
  let candidate := pathJoin dst_dir (stem ++ "__" ++ suffix ++ ext)
  if fsExists fs candidate then
    versionedLoop fs dst_dir stem suffix ext (fs.length + 1) 1
  else candidate

/-- Outcome of one attempted `shutil.move`/`shutil.copy2` call, an input of
the model (the OS decides it at run time): success, a raised
`shutil.Error`, or a raised `OSError` that is not a `shutil.Error`
(`organize_projects` catches only `shutil.Error`). -/
inductive TransferOutcome where
  | ok
  | shutilError (msg : String)
  | osError (msg : String)
  deriving DecidableEq

/-- Mutable state of one `organize_projects` run: the filesystem, the
in-memory `journal_entries` list, the on-disk journal file, plus two
counters — `attempted` counts handled `doc_ids` (ghost, for stating
invariants) and `tcount` indexes consulted transfer outcomes. -/
structure OrgState where
  fs : FS
  entries : List JournalRecord
  jfile : List String
  attempted : Nat
  tcount : Nat
  deriving DecidableEq

/-- Environment of an organize run: the configuration, the scored records,
the external content-hash digest, the oracle of transfer outcomes (indexed
by attempt) and the constant modelling `now_ms()`. -/
structure OrgEnv where
  cfg : OrganizeConfig
  scored : List FileRecord
  hashHex : String → String
  outcomes : Nat → TransferOutcome
  ts : Nat

/-- What one iteration of the `for path_str in doc_ids:` loop does, before
it is applied to the run's state: append one journal record with a
filesystem update (every non-raising branch of the loop body appends
exactly one record), or let an uncaught `OSError` propagate.  `consumed`
records whether the branch attempted a transfer (and hence consulted the
outcome oracle). -/
inductive DocAct where
  | entry (r : JournalRecord) (fsNew : FS) (consumed : Bool)
  | abort (msg : String)

/-- The branch logic of the loop body of `organize_projects`
(`organize.py` lines 130–186) for one source path: the `MISS` guard, the
bucket resolution, the `skip`/`version` conflict handling, and the
`try`/`except shutil.Error` around the transfer.  `base` is
`config.target_root / label`. -/
def organize_doc_act (env : OrgEnv) (base : String) (path_str : String)
    (fs : FS) (tc : Nat) : DocAct :=
  let src := path_str
  if fsExists fs src = false then
    DocAct.entry { timestamp_ms := env.ts, code := "MISS", source := src } fs false
  else
    let record := byPathGet env.scored src
    let bucket := bucketOf record
    let dst_dir := pathJoin base bucket
    let dst_path := pathJoin dst_dir (pyName src)
    if fsExists fs dst_path ∧ env.cfg.conflict = Conflict.skipPolicy then
      DocAct.entry
        { timestamp_ms := env.ts, code := "SKIP", source := src,
          details := [("reason", "exists")] } fs false
    else
      let dst_path :=
        if fsExists fs dst_path ∧ env.cfg.conflict = Conflict.version then
          _versioned_name fs dst_dir (pyName src)
            (blake3_path_hash env.hashHex fs src)
        else dst_path
      match env.outcomes tc with
      | TransferOutcome.ok =>
          match env.cfg.mode with
          | Mode.move =>
              DocAct.entry
                { timestamp_ms := env.ts, code := "MOVE", source := src,
                  destination := some dst_path }
                (fsMove fs src dst_path) true
          | Mode.copy =>
              DocAct.entry
                { timestamp_ms := env.ts, code := "COPY", source := src,
                  destination := some dst_path }
                (fsInsert fs dst_path ((fsLookup fs src).getD "")) true
      | TransferOutcome.shutilError msg =>
          DocAct.entry
            { timestamp_ms := env.ts, code := "ERROR", source := src,
              destination := some dst_path,
              details := [("message", msg)] } fs true
      | TransferOutcome.osError msg => DocAct.abort msg

/-- One iteration of the per-file loop applied to the run's state: the
chosen branch appends its record to the in-memory `journal_entries` (never
to the journal file) and updates the filesystem; an uncaught `OSError`
aborts.  `Except.error` carries the state at the raise for observation. -/
def organize_doc (env : OrgEnv) (base : String) (path_str : String)
    (st : OrgState) : Except (String × OrgState) OrgState :=
  match organize_doc_act env base path_str st.fs st.tcount with
  | DocAct.entry r fsNew consumed =>
      .ok { st with
            fs := fsNew,
            entries := st.entries ++ [r],
            attempted := st.attempted + 1,
            tcount := st.tcount + (if consumed then 1 else 0) }
  | DocAct.abort msg => .error (msg, { st with tcount := st.tcount + 1 })

/-- The flattened iteration space of the two nested loops of
`organize_projects`: one `(base, path_str)` pair per `doc_id`, in program
order (`ensure_directory`/`ensure_schema` touch only directories, which
this model does not materialise). -/
def orgOps (cfg : OrganizeConfig) (projects : List Project) :
    List (String × String) :=
  projects.flatMap (fun p =>
    p.doc_ids.map (fun d => (pathJoin cfg.target_root (projectLabel p), d)))

/-- Run the per-file loop over a list of `(base, path_str)` operations. -/
def orgRunAux (env : OrgEnv) :
    List (String × String) → OrgState → Except (String × OrgState) OrgState
  | [], st => .ok st
  | op :: rest, st =>
      match organize_doc env op.1 op.2 st with
      | .ok st2 => orgRunAux env rest st2
      | .error e => .error e

/-- `organize.organize_projects`: run every project's files, then append
the accumulated `journal_entries` to the journal file in one
`append_journal` call (`organize.py` line 187).  On an uncaught exception
the journal file is left as it was (the final append never runs). -/
def organize_projects (env : OrgEnv) (projects : List Project)
    (fs0 : FS) (jfile0 : List String) : Except (String × OrgState) OrgState :=
  let st0 : OrgState :=
    { fs := fs0, entries := [], jfile := jfile0, attempted := 0, tcount := 0 }
  match orgRunAux env (orgOps env.cfg projects) st0 with
  | .ok st => .ok { st with jfile := append_journal st.jfile st.entries }
  | .error e => .error e

/-- The trace of intermediate states of the per-file loop: the state before
the first operation and after each completed operation, in order (the trace
stops at an aborted operation).  This makes the claim "the journal line is
flushed before the next file" statable: it quantifies over these
intermediate points. -/
def orgTrace (env : OrgEnv) :
    List (String × String) → OrgState → List OrgState
  | [], st => [st]
  | op :: rest, st =>
      st ::
        (match organize_doc env op.1 op.2 st with
         | .ok st2 => orgTrace env rest st2
         | .error e => [e.2])

/-! ## `json.loads` on journal lines

`rollback` parses each journal line with `json.loads`.  The model
implements the JSON fragment in which every journal line of this program
lives: a flat object with string keys and string / integer / boolean /
null values, plus top-level scalars.  A parse failure is
`json.JSONDecodeError` (`ParseOut.decodeErr`); a valid top-level scalar is
a value without `.get`, on which `rollback` would die with
`AttributeError` (`ParseOut.nonObject`).  Nested containers, floats and
`\u` escapes never occur in a journal and are outside the modelled
fragment (the parser reports them as decode errors). -/

/-- A parsed JSON scalar value. -/
inductive JVal where
  | jstr (s : String)
  | jint (n : Int)
  | jbool (b : Bool)
  | jnull
  deriving DecidableEq

/-- Result of `json.loads` on one journal line. -/
inductive ParseOut where
  | decodeErr
  | nonObject
  | obj (fields : List (String × JVal))
  deriving DecidableEq

/-- JSON insignificant whitespace. -/
def isJsonWs (c : Char) : Bool :=
  c = ' ' ∨ c = '\t' ∨ c = '\n' ∨ c = '\r'

/-- Drop leading JSON whitespace. -/
def skipWs : List Char → List Char
  | [] => []
  | c :: rest => if isJsonWs c then skipWs rest else c :: rest

/-- Parse the remainder of a JSON string literal (the opening quote is
already consumed); returns the decoded text and the rest of the input. -/
def parseJStrAux : List Char → List Char → Option (String × List Char)
  | [], _ => none
  | c :: rest, acc =>
      if c = '\"' then some (String.mk acc.reverse, rest)
      else if c = '\\' then
        match rest with
        | [] => none
        | e :: rest2 =>
            if e = '\"' then parseJStrAux rest2 ('\"' :: acc)
            else if e = '\\' then parseJStrAux rest2 ('\\' :: acc)
            else if e = '/' then parseJStrAux rest2 ('/' :: acc)
            else if e = 'n' then parseJStrAux rest2 ('\n' :: acc)
            else if e = 't' then parseJStrAux rest2 ('\t' :: acc)
            else if e = 'r' then parseJStrAux rest2 ('\r' :: acc)
            else none
      else parseJStrAux rest (c :: acc)

/-- Parse a non-empty digit run into a natural number. -/
def parseDigitsAux : List Char → Nat → Bool → Option (Nat × List Char)
  | [], acc, seen => if seen then some (acc, []) else none
  | c :: rest, acc, seen =>
      if c.isDigit then
        parseDigitsAux rest (acc * 10 + (c.toNat - 48)) true
      else if seen then some (acc, c :: rest)
      else none

/-- Parse one JSON scalar value (string, integer, `true`, `false`,
`null`). -/
def parseScalar (cs : List Char) : Option (JVal × List Char) :=
  match cs with
  | '\"' :: rest =>
      match parseJStrAux rest [] with
      | some (s, rest2) => some (JVal.jstr s, rest2)
      | none => none
  | '-' :: rest =>
      match parseDigitsAux rest 0 false with
      | some (n, rest2) => some (JVal.jint (-(n : Int)), rest2)
      | none => none
  | 't' :: 'r' :: 'u' :: 'e' :: rest => some (JVal.jbool true, rest)
  | 'f' :: 'a' :: 'l' :: 's' :: 'e' :: rest => some (JVal.jbool false, rest)
  | 'n' :: 'u' :: 'l' :: 'l' :: rest => some (JVal.jnull, rest)
  | c :: rest =>
      if c.isDigit then
        match parseDigitsAux (c :: rest) 0 false with
        | some (n, rest2) => some (JVal.jint (n : Int), rest2)
        | none => none
      else none
  | [] => none

/-- Parse the members of a flat object, positioned at a key; `fuel` bounds
the recursion (one member consumes at least one character, so
`length + 1` fuel is always enough). -/
def parseMembersAux : Nat → List Char → List (String × JVal) →
    Option (List (String × JVal) × List Char)
  | 0, _, _ => none
  | fuel + 1, cs, acc =>
      match skipWs cs with
      | '\"' :: rest =>
          match parseJStrAux rest [] with
          | some (k, rest2) =>
              match skipWs rest2 with
              | ':' :: rest3 =>
                  match parseScalar (skipWs rest3) with
                  | some (v, rest4) =>
                      match skipWs rest4 with
                      | ',' :: rest5 =>
                          parseMembersAux fuel rest5 (acc ++ [(k, v)])
                      | '\x7d' :: rest5 => some (acc ++ [(k, v)], rest5)
                      | _ => none
                  | none => none
              | _ => none
          | none => none
      | _ => none

/-- `json.loads` on one journal line, within the modelled fragment. -/
def parseLine (l : String) : ParseOut :=
  match skipWs l.data with
  | '\x7b' :: rest =>
      match skipWs rest with
      | '\x7d' :: rest2 =>
          if skipWs rest2 = [] then ParseOut.obj [] else ParseOut.decodeErr
      | _ =>
          match parseMembersAux (l.length + 1) rest [] with
          | some (fields, rest2) =>
              if skipWs rest2 = [] then ParseOut.obj fields
              else ParseOut.decodeErr
          | none => ParseOut.decodeErr
  | cs =>
      match parseScalar cs with
      | some (_, rest2) =>
          if skipWs rest2 = [] then ParseOut.nonObject else ParseOut.decodeErr
      | none => ParseOut.decodeErr

/-- Python dict lookup on the parsed members: on duplicate keys the last
occurrence wins, as in a dict built by `json.loads`. -/
def jGet (fields : List (String × JVal)) (k : String) : Option JVal :=
  (fields.reverse.find? (fun kv => kv.1 = k)).map (fun kv => kv.2)

/-! ## `organize.rollback` -/

/-- An uncaught Python exception inside the rollback loop: `data["src"]`
on a record without `"src"` (`KeyError`), `Path(...)` on a non-string
(`TypeError`), `.get` on a non-dict (`AttributeError`). -/
inductive RbErr where
  | keyError
  | typeError
  | attrError
  deriving DecidableEq

/-- What `rollback` does with one journal line (`organize.py` lines
196–204), before looking at the filesystem: skip it, restore the transfer
`(src, dst)` recorded in it, or raise. -/
inductive LineAct where
  | skip
  | act (src : String) (dst : String)
  | err (e : RbErr)
  deriving DecidableEq

/-- Classify one journal line exactly as the body of the rollback loop
does: `json.JSONDecodeError` → `continue`; a code outside
`{"MOVE", "COPY"}` (including an absent or non-string code) → `continue`;
then `src = Path(data["src"])` (`KeyError` when absent, `TypeError` when
not a string) and `dst = Path(data.get("dst", ""))`. -/
def lineAct (l : String) : LineAct :=
  match parseLine l with
  | ParseOut.decodeErr => LineAct.skip
  | ParseOut.nonObject => LineAct.err RbErr.attrError
  | ParseOut.obj fields =>
      match jGet fields "code" with
      | some (JVal.jstr c) =>
          if c = "MOVE" ∨ c = "COPY" then
            match jGet fields "src" with
            | none => LineAct.err RbErr.keyError
            | some (JVal.jstr s) =>
                match jGet fields "dst" with
                | some (JVal.jstr d) => LineAct.act s d
                | none => LineAct.act s ""
                | some _ => LineAct.err RbErr.typeError
            | some _ => LineAct.err RbErr.typeError
          else LineAct.skip
      | _ => LineAct.skip

/-- The rollback loop over the (already reversed) journal lines.  An
`act s d` line whose destination does not exist is treated as already
restored; otherwise the destination is moved back to the source
(`shutil.move(dst, src)`), counting one restoration. -/
def rollbackAux : List String → FS → Nat → Except RbErr (FS × Nat)
  | [], fs, n => .ok (fs, n)
  | l :: rest, fs, n =>
      match lineAct l with
      | LineAct.skip => rollbackAux rest fs n
      | LineAct.err e => .error e
      | LineAct.act s d =>
          if fsExists fs d then rollbackAux rest (fsMove fs d s) (n + 1)
          else rollbackAux rest fs n

/-- `organize.rollback` on the lines of an existing journal file: iterate
the lines in reverse order.  (The `if not journal_path.exists(): return`
guard corresponds to not calling this function.)  The `Nat` component
counts performed restorations — a ghost observation used to state
idempotence. -/
def rollback (lines : List String) (fs : FS) : Except RbErr (FS × Nat) :=
  rollbackAux lines.reverse fs 0

/-- The transfers a journal's lines denote: the `(src, dst)` of every line
that `rollback` would classify as a MOVE/COPY restore action. -/
def lineTransfer (l : String) : Option (String × String) :=
  match lineAct l with
  | LineAct.act s d => some (s, d)
  | _ => none

/-- All transfers recorded in a journal. -/
def transfersOf (lines : List String) : List (String × String) :=
  lines.filterMap lineTransfer

/-- A line on which `json.loads` fails (the `except json.JSONDecodeError:
continue` branch). -/
def decodeFails (l : String) : Bool :=
  parseLine l = ParseOut.decodeErr

/-- A line the rollback loop can process without raising: it parses to an
object and, when its code is `MOVE`/`COPY`, it carries a string `src` and
at most a string `dst`. -/
def lineWellFormed (l : String) : Bool :=
  match lineAct l with
  | LineAct.err _ => false
  | _ => !(decodeFails l)

/-! ## `src/scanner/textual.py` -/

/-- The `_TEXT_EXTENSIONS` set. -/
def textExtensions : List String :=
  [".md", ".txt", ".py", ".json", ".yml", ".yaml", ".cfg", ".ini", ".toml",
   ".csv", ".rs", ".ts", ".js", ".java"]

/-- `textual.is_textual_file`.  `mimetypes.guess_type` is external; the
parameter `guessMimeText name` models `mime is not None and
mime.startswith("text")`. -/
def is_textual_file (guessMimeText : String → Bool) (path : String) : Bool :=
  guessMimeText (pyName path) ||
    textExtensions.contains ((pySuffix (pyName path)).toLower)

/-! ## `src/scanner/walker.py` -/

/-- What `stat` plus the optional bounded read return for a live file:
its size, mtime and content (the walker/runner read at most
`sample_bytes` of it for the hint). -/
structure FileMeta where
  size : Nat
  mtime : Nat
  content : String
  deriving DecidableEq

/-- One filesystem entry as `os.scandir` presents it: a regular file whose
later `stat`/read either succeeds with `FileMeta` or raises `OSError msg`;
an entry that is neither file nor directory; a directory whose `scandir`
fails; or a directory with its listing. -/
inductive FsNode where
  | file (name : String) (res : Except String FileMeta)
  | other (name : String)
  | dirFail (name : String) (msg : String)
  | dirOk (name : String) (children : List FsNode)

/-- Decidable equality of stat outcomes. -/
instance exceptDecEq {α β : Type} [DecidableEq α] [DecidableEq β] :
    DecidableEq (Except α β)
  | Except.ok a, Except.ok b =>
      if h : a = b then isTrue (by rw [h]) else isFalse (by simp [h])
  | Except.ok _, Except.error _ => isFalse (by simp)
  | Except.error _, Except.ok _ => isFalse (by simp)
  | Except.error a, Except.error b =>
      if h : a = b then isTrue (by rw [h]) else isFalse (by simp [h])

/-- Name of an entry. -/
def FsNode.name : FsNode → String
  | FsNode.file n _ => n
  | FsNode.other n => n
  | FsNode.dirFail n _ => n
  | FsNode.dirOk n _ => n

/-- `scanner.models.ScanOptions`.  `throttle_interval` and the two
timeouts are modelled over `Nat` clock units (the source uses float
seconds); `include` is renamed `include_globs` (a Lean keyword). -/
structure ScanOptions where
  roots : List String
  include_globs : List String := []
  exclude : List String := []
  max_depth : Option Nat := none
  batch_size : Nat := 128
  sample_bytes : Nat := 4096
  throttle_interval : Nat := 0
  overall_timeout : Option Nat := none
  per_batch_timeout : Option Nat := none
  follow_symlinks : Bool := false

/-- What the walker emits while iterating: a yielded file path (with the
stat/read outcome the runner will observe for it), or a reported per-entry
error (`_report_error`): a missing root or a failed `scandir`. -/
inductive WEvent where
  | wfile (path : String) (res : Except String FileMeta)
  | werr (path : String) (msg : String)
  deriving DecidableEq

/-- `DirectoryWalker._match_include`: `fnmatch.fnmatchcase` is external and
enters as the parameter `matchPat pattern rel`. -/
def match_include (matchPat : String → String → Bool)
    (patterns : List String) (rel : String) : Bool :=
  patterns.any (fun pat => matchPat pat rel)

/-- `DirectoryWalker._is_excluded`. -/
def is_excluded (matchPat : String → String → Bool)
    (exclude : List String) (rel : String) (is_dir : Bool) : Bool :=
  if exclude.isEmpty then false
  else if exclude.any (fun pat => matchPat pat rel) then true
  else if is_dir then exclude.any (fun pat => matchPat pat (rel ++ "/"))
  else false

mutual

/-- Size of a subtree, used as walker fuel. -/
def nodeSize : FsNode → Nat
  | FsNode.file _ _ => 1
  | FsNode.other _ => 1
  | FsNode.dirFail _ _ => 1
  | FsNode.dirOk _ children => 1 + nodesSize children

/-- Total size of a listing. -/
def nodesSize : List FsNode → Nat
  | [] => 0
  | n :: rest => nodeSize n + nodesSize rest

end

/-- A directory waiting on the walker's explicit stack: its absolute path,
its path relative to the root, and its depth. -/
structure StackEnt where
  abs : String
  rel : String
  depth : Nat
  node : FsNode

/-- Process one directory listing in `os.scandir` order: emit `wfile`
events for live included files and collect the sub-directories to push,
applying exclusion, the depth bound and the is-file check exactly as
`walker.py` lines 40–60 do.  Returns `(events, dirs-to-push)`. -/
def processListing (matchPat : String → String → Bool) (opts : ScanOptions)
    (parentAbs parentRel : String) (depth : Nat) :
    List FsNode → List WEvent × List StackEnt
  | [] => ([], [])
  | child :: rest =>
      let childAbs := pathJoin parentAbs child.name
      let childRel := if parentRel = "" then child.name
                      else parentRel ++ "/" ++ child.name
      let is_dir := match child with
                    | FsNode.dirOk _ _ => true
                    | FsNode.dirFail _ _ => true
                    | _ => false
      let (evs, dirs) :=
        processListing matchPat opts parentAbs parentRel depth rest
      if is_excluded matchPat opts.exclude childRel is_dir then (evs, dirs)
      else if is_dir then
        match opts.max_depth with
        | some m =>
            if depth + 1 > m then (evs, dirs)
            else (evs, ⟨childAbs, childRel, depth + 1, child⟩ :: dirs)
        | none => (evs, ⟨childAbs, childRel, depth + 1, child⟩ :: dirs)
      else
        match child with
        | FsNode.file _ res =>
            if opts.include_globs ≠ [] ∧
                ¬ match_include matchPat opts.include_globs childRel then
              (evs, dirs)
            else (WEvent.wfile childAbs res :: evs, dirs)
        | _ => (evs, dirs)

/-- The `while stack:` loop of `_walk_root`.  The model's stack keeps its
top at the head; pushing a listing's sub-directories in reverse makes the
head the last-pushed one, matching `list.append` + `list.pop()`.  `fuel`
bounds the loop; `sizeOf`-many iterations always finish the stack, so the
fuel-exhaustion branch is unreachable and exists only for totality. -/
def walkLoop (matchPat : String → String → Bool) (opts : ScanOptions) :
    Nat → List StackEnt → List WEvent
  | 0, _ => []
  | _, [] => []
  | fuel + 1, ent :: rest =>
      match ent.node with
      | FsNode.dirFail _ msg =>
          WEvent.werr ent.abs msg :: walkLoop matchPat opts fuel rest
      | FsNode.dirOk _ children =>
          let (evs, dirs) :=
            processListing matchPat opts ent.abs ent.rel ent.depth children
          evs ++ walkLoop matchPat opts fuel (dirs.reverse ++ rest)
      | _ => walkLoop matchPat opts fuel rest

/-- `DirectoryWalker._walk_root`: a missing root is reported through
`_report_error` with `FileNotFoundError(f"missing root: {root}")` and the
root is not walked; an existing root starts the stack at depth 0. -/
def _walk_root (matchPat : String → String → Bool) (opts : ScanOptions)
    (world : List (String × FsNode)) (root : String) : List WEvent :=
  match (world.find? (fun e => e.1 = root)).map (fun e => e.2) with
  | none => [WEvent.werr root ("missing root: " ++ root)]
  | some node =>
      walkLoop matchPat opts (nodeSize node + 1) [⟨root, "", 0, node⟩]

/-- `DirectoryWalker.iter_files`: walk each configured root in order. -/
def iter_files (matchPat : String → String → Bool) (opts : ScanOptions)
    (world : List (String × FsNode)) : List WEvent :=
  opts.roots.flatMap (_walk_root matchPat opts world)

/-! ## `src/scanner/state.py` and `runner.py` -/

/-- `models.ProgressStats` with the float fields over `Nat` clock units
(`elapsed_seconds` unrounded, the throughput-based ETA by integer
division). -/
structure ProgressStats where
  processed : Nat
  discovered : Nat
  skipped : Nat
  elapsed : Nat
  eta : Option Nat
  deriving DecidableEq

/-- `models.ScanBatch`. -/
structure ScanBatch where
  records : List FileRecord
  stats : ProgressStats
  errors : List ScanError
  deriving DecidableEq

/-- The fatal failures of a scan call: `ScanCancelledError` or
`ScanTimeoutError` with its message. -/
inductive ScanFail where
  | cancelled
  | timeout (msg : String)
  deriving DecidableEq

/-- `state.ScanState` plus the run's accumulators that live in local
variables of `scan_batches` (`batch`, `errors`, the yielded batches) and
two instrumentation counters: `tick` indexes `time.perf_counter()` calls
and `reads` indexes `token.is_cancelled()` calls. -/
structure RState where
  processed : Nat
  discovered : Nat
  skipped : Nat
  errorsC : Nat
  pending : List ScanError
  current_path : Option String
  start_time : Nat
  last_callback_time : Nat
  last_batch_time : Nat
  batch : List FileRecord
  errs : List ScanError
  out : List ScanBatch
  tick : Nat
  reads : Nat
  deriving DecidableEq

/-- Environment of a scan run: the options, the cancellation token's
reading schedule (`none` models passing no token; otherwise `sched i` is
what the i-th `is_cancelled()` call returns), the monotonic clock by call
index, whether a progress callback was supplied, and the external
`sha256_text` and mime-type functions. -/
structure ScanEnv where
  opts : ScanOptions
  sched : Option (Nat → Bool)
  clock : Nat → Nat
  hasCallback : Bool
  shaText : String → String
  guessMimeText : String → Bool

/-- One `time.perf_counter()` call: read the clock at the current tick. -/
def readClock (env : ScanEnv) (st : RState) : Nat × RState :=
  (env.clock st.tick, { st with tick := st.tick + 1 })

/-- `ScanState.snapshot`. -/
def snapshot (st : RState) (now : Nat) : ProgressStats :=
  let elapsed := now - st.start_time
  let remaining := st.discovered - st.processed
  let eta : Option Nat :=
    if 0 < st.processed ∧ 0 < remaining then
      some (elapsed * remaining / st.processed)
    else if 0 < st.processed then some 0
    else none
  { processed := st.processed, discovered := st.discovered,
    skipped := st.skipped, elapsed := elapsed, eta := eta }

/-- `ScanState.should_emit_progress`. -/
def should_emit_progress (env : ScanEnv) (st : RState) (now : Nat) : Bool :=
  if ¬ env.hasCallback then false
  else if env.opts.throttle_interval = 0 then true
  else decide (env.opts.throttle_interval ≤ now - st.last_callback_time)

/-- `ScanState.emit_progress`: the callback itself is an external
observer; its only effect on the scanner is `last_callback_time`. -/
def emit_progress (st : RState) (now : Nat) : RState :=
  { st with last_callback_time := now }

/-- `runner._ensure_limits`: consult the cancellation token (when one was
passed), then the overall and per-batch timeouts, raising the matching
failure.  The function only reads state; the bookkeeping of how many times
the token has been read is `bumpReads` at the call sites. -/
def _ensure_limits (env : ScanEnv) (st : RState) (now : Nat) :
    Option ScanFail :=
  let cancelledNow :=
    match env.sched with
    | some f => f st.reads
    | none => false
  if cancelledNow then some ScanFail.cancelled
  else
    match env.opts.overall_timeout with
    | some t =>
        if t ≤ now - st.start_time then
          some (ScanFail.timeout "overall timeout exceeded")
        else
          match env.opts.per_batch_timeout with
          | some t2 =>
              if t2 ≤ now - st.last_batch_time then
                some (ScanFail.timeout "per-batch timeout exceeded")
              else none
          | none => none
    | none =>
        match env.opts.per_batch_timeout with
        | some t2 =>
            if t2 ≤ now - st.last_batch_time then
              some (ScanFail.timeout "per-batch timeout exceeded")
            else none
        | none => none

/-- Advance the token-read counter after one `_ensure_limits` call (one
`is_cancelled()` reading happens exactly when a token was passed). -/
def bumpReads (env : ScanEnv) (st : RState) : RState :=
  match env.sched with
  | some _ => { st with reads := st.reads + 1 }
  | none => st

/-- Build the `FileRecord` of a successfully stat'd path (`runner.py`
lines 70–80). -/
def mkRecord (env : ScanEnv) (p : String) (meta : FileMeta) : FileRecord :=
  { path := p,
    safe_id := env.shaText p,
    name := pyName p,
    ext := (pySuffix (pyName p)).toLower,
    size := meta.size,
    mtime := meta.mtime,
    hint := if is_textual_file env.guessMimeText p then
              meta.content.take env.opts.sample_bytes
            else "" }

/-- `runner._make_error_handler`: count the entry as skipped and errored,
queue the `ScanError`, update `current_path`, and (only when a callback
was supplied) emit progress at a fresh `perf_counter` reading. -/
def handleWalkError (env : ScanEnv) (st : RState) (p msg : String) : RState :=
  let st := { st with
              skipped := st.skipped + 1,
              errorsC := st.errorsC + 1,
              pending := st.pending ++ [⟨p, msg⟩],
              current_path := some p }
  if env.hasCallback then
    let (now, st) := readClock env st
    emit_progress st now
  else st

/-- Lines 62–64 of `runner.py`: move pending walker errors into the
current error list. -/
def flushPending (st : RState) : RState :=
  if st.pending ≠ [] then
    { st with errs := st.errs ++ st.pending, pending := [] }
  else st

/-- The body of the `for path in walker.iter_files():` loop for one
yielded path (`runner.py` lines 62–98): flush pending walker errors,
guard, stat (building a record or a `ScanError`), guard again, progress,
and the batch-size flush.  Returns the state afterwards, with the fatal
failure when a guard raised. -/
def processFile (env : ScanEnv) (p : String) (res : Except String FileMeta)
    (st : RState) : RState × Option ScanFail :=
  let st := flushPending st
  let (now, st) := readClock env st
  match _ensure_limits env st now with
  | some f => (bumpReads env st, some f)
  | none =>
    let st := bumpReads env st
    let st := { st with current_path := some p,
                        discovered := st.discovered + 1 }
    let st :=
      match res with
      | Except.ok meta =>
          { st with batch := st.batch ++ [mkRecord env p meta],
                    processed := st.processed + 1 }
      | Except.error msg =>
          { st with errs := st.errs ++ [⟨p, msg⟩],
                    skipped := st.skipped + 1,
                    errorsC := st.errorsC + 1 }
    let (now2, st) := readClock env st
    match _ensure_limits env st now2 with
    | some f => (bumpReads env st, some f)
    | none =>
      let st := bumpReads env st
      let st := if should_emit_progress env st now2 then
                  emit_progress st now2
                else st
      let st :=
        if env.opts.batch_size ≤ st.batch.length then
          let stats := snapshot st now2
          let st := { st with
                      out := st.out ++ [⟨st.batch, stats, st.errs⟩],
                      batch := [], errs := [] }
          let (t, st) := readClock env st
          { st with last_batch_time := t }
        else st
      (st, none)

/-- The `for path in walker.iter_files():` loop plus the error-handler
effects interleaved with it, one `WEvent` at a time.  Returns the state at
exit and the fatal failure, if one was raised. -/
def scanLoop (env : ScanEnv) : List WEvent → RState → RState × Option ScanFail
  | [], st => (st, none)
  | WEvent.werr p msg :: rest, st =>
      scanLoop env rest (handleWalkError env st p msg)
  | WEvent.wfile p res :: rest, st =>
      match processFile env p res st with
      | (st2, some f) => (st2, some f)
      | (st2, none) => scanLoop env rest st2

/-- The state `scan_batches` starts from: the `ScanState` dataclass
defaults, whose three time fields are the first three `perf_counter`
readings. -/
def initState (env : ScanEnv) : RState :=
  { processed := 0, discovered := 0, skipped := 0, errorsC := 0,
    pending := [], current_path := none,
    start_time := env.clock 0, last_callback_time := env.clock 1,
    last_batch_time := env.clock 2,
    batch := [], errs := [], out := [], tick := 3, reads := 0 }

/-- `runner.scan_batches` on the walker's event stream: initialise the
state (the three `perf_counter` defaults of `ScanState`), run the loop,
then flush trailing pending errors, yield the final partial batch when
non-empty, and fire the completion progress event. -/
def scan_batches (env : ScanEnv) (evs : List WEvent) :
    RState × Option ScanFail :=
  match scanLoop env evs (initState env) with
  | (st, some f) => (st, some f)
  | (st, none) =>
      let st := flushPending st
      let (final_now, st) := readClock env st
      let st :=
        if st.batch ≠ [] ∨ st.errs ≠ [] then
          let stats := snapshot st final_now
          { st with out := st.out ++ [⟨st.batch, stats, st.errs⟩],
                    batch := [], errs := [] }
        else st
      let st :=
        if env.hasCallback then
          emit_progress { st with current_path := none } final_now
        else st
      (st, none)

/-- The full scan call: walk the configured roots, then batch. -/
def scanRun (matchPat : String → String → Bool) (env : ScanEnv)
    (world : List (String × FsNode)) : RState × Option ScanFail :=
  scan_batches env (iter_files matchPat env.opts world)

/-- Records and errors delivered across all yielded batches. -/
def deliveredCount (out : List ScanBatch) : Nat :=
  (out.map (fun b => b.records.length + b.errors.length)).sum

/-- All `ScanError`s delivered across all yielded batches, in order. -/
def deliveredErrors (out : List ScanBatch) : List ScanError :=
  out.flatMap (fun b => b.errors)

/-! ## Concrete organize scenario (the spec's `dup.txt` scenario)

Two files both named `dup.txt`, contents `"A"` and `"B"`, organized into
project `p` under `version` policy with `move` mode.  The external hex
digest is instantiated with an oracle that separates the two contents. -/

/-- Configuration of the scenario: `version` conflict policy, `move` mode. -/
def dupCfg : OrganizeConfig :=
  { target_root := "t", mode := Mode.move, conflict := Conflict.version,
    schema_paths := ["src/", "docs/", "data/", "tests/", "images/", "misc/"] }

/-- Scored record of the first `dup.txt`. -/
def dupRecA : FileRecord :=
  { path := "inA/dup.txt", safe_id := "sa", name := "dup.txt", ext := ".txt",
    size := 1, mtime := 0, bucket := some "misc" }

/-- Scored record of the second `dup.txt`. -/
def dupRecB : FileRecord :=
  { path := "inB/dup.txt", safe_id := "sb", name := "dup.txt", ext := ".txt",
    size := 1, mtime := 0, bucket := some "misc" }

/-- Content-hash oracle separating the two contents. -/
def dupHash : String → String :=
  fun c => if c = "A" then "1111111111" else "2222222222"

/-- Environment of the scenario; every transfer succeeds. -/
def dupEnv : OrgEnv :=
  { cfg := dupCfg, scored := [dupRecA, dupRecB], hashHex := dupHash,
    outcomes := fun _ => TransferOutcome.ok, ts := 7 }

/-- The single project `p` holding both files. -/
def dupProj : Project :=
  { project_label := some "p", doc_ids := ["inA/dup.txt", "inB/dup.txt"] }

/-- Initial filesystem of the scenario. -/
def dupFS0 : FS := [("inA/dup.txt", "A"), ("inB/dup.txt", "B")]

/-- Journal line of the first transfer. -/
def dupLine1 : String :=
  "\x7b\"ts\": 7, \"code\": \"MOVE\", \"src\": \"inA/dup.txt\", \"dst\": \"t/p/misc/dup.txt\"\x7d"

/-- Journal line of the second transfer. -/
def dupLine2 : String :=
  "\x7b\"ts\": 7, \"code\": \"MOVE\", \"src\": \"inB/dup.txt\", \"dst\": \"t/p/misc/dup__2222222.txt\"\x7d"

/-- Final state of the scenario run. -/
def dupFinal : OrgState :=
  { fs := [("t/p/misc/dup__2222222.txt", "B"), ("t/p/misc/dup.txt", "A")],
    entries :=
      [{ timestamp_ms := 7, code := "MOVE", source := "inA/dup.txt",
         destination := some "t/p/misc/dup.txt" },
       { timestamp_ms := 7, code := "MOVE", source := "inB/dup.txt",
         destination := some "t/p/misc/dup__2222222.txt" }],
    jfile := [dupLine1, dupLine2],
    attempted := 2, tcount := 2 }

/-! ## Structural lemmas on the organizer -/

/-- `organize_doc` never touches the on-disk journal file. -/
theorem organize_doc_jfile (env : OrgEnv) (b p : String) (st : OrgState) :
    (∀ r, organize_doc env b p st = Except.ok r → r.jfile = st.jfile) ∧
    (∀ e, organize_doc env b p st = Except.error e → e.2.jfile = st.jfile) := by
  constructor
  · intro r h
    unfold organize_doc at h
    cases hact : organize_doc_act env b p st.fs st.tcount with
    | entry r2 fsNew consumed =>
        rw [hact] at h
        cases h
        rfl
    | abort msg =>
        rw [hact] at h
        cases h
  · intro e h
    unfold organize_doc at h
    cases hact : organize_doc_act env b p st.fs st.tcount with
    | entry r2 fsNew consumed =>
        rw [hact] at h
        cases h
    | abort msg =>
        rw [hact] at h
        cases h
        rfl

/-- The per-file loop never touches the on-disk journal file. -/
theorem orgRunAux_jfile (env : OrgEnv) :
    ∀ (ops : List (String × String)) (st : OrgState),
      (∀ r, orgRunAux env ops st = Except.ok r → r.jfile = st.jfile) ∧
      (∀ e, orgRunAux env ops st = Except.error e → e.2.jfile = st.jfile) := by
  intro ops
  induction ops with
  | nil =>
      intro st
      constructor
      · intro r h
        cases h
        rfl
      · intro e h
        cases h
  | cons op rest ih =>
      intro st
      constructor
      · intro r h
        simp only [orgRunAux] at h
        cases hdoc : organize_doc env op.1 op.2 st with
        | ok st2 =>
            rw [hdoc] at h
            have h1 := ((organize_doc_jfile env op.1 op.2 st).1) st2 hdoc
            have h2 := ((ih st2).1) r h
            rw [h2, h1]
        | error e =>
            rw [hdoc] at h
            simp at h
      · intro e h
        simp only [orgRunAux] at h
        cases hdoc : organize_doc env op.1 op.2 st with
        | ok st2 =>
            rw [hdoc] at h
            have h1 := ((organize_doc_jfile env op.1 op.2 st).1) st2 hdoc
            have h2 := ((ih st2).2) e h
            rw [h2, h1]
        | error e2 =>
            rw [hdoc] at h
            simp at h
            rw [← h]
            exact ((organize_doc_jfile env op.1 op.2 st).2) e2 hdoc

/-- Every state of the per-file trace carries the initial journal file:
nothing reaches the disk while files are being transferred. -/
theorem orgTrace_jfile (env : OrgEnv) :
    ∀ (ops : List (String × String)) (st : OrgState),
      ∀ st2, st2 ∈ orgTrace env ops st → st2.jfile = st.jfile := by
  intro ops
  induction ops with
  | nil =>
      intro st st2 h
      simp [orgTrace] at h
      rw [h]
  | cons op rest ih =>
      intro st st2 h
      unfold orgTrace at h
      rcases List.mem_cons.mp h with h1 | h1
      · rw [h1]
      · cases hdoc : organize_doc env op.1 op.2 st with
        | ok stn =>
            rw [hdoc] at h1
            have := ih stn st2 h1
            rw [this]
            exact ((organize_doc_jfile env op.1 op.2 st).1) stn hdoc
        | error e =>
            rw [hdoc] at h1
            simp at h1
            rw [h1]
            exact ((organize_doc_jfile env op.1 op.2 st).2) e hdoc

/-- An aborted loop iteration comes only from the transfer-outcome oracle
reporting an `OSError` that is not a `shutil.Error`. -/
theorem organize_doc_act_abort (env : OrgEnv) (b p : String) (fs : FS)
    (tc : Nat) (msg : String)
    (h : organize_doc_act env b p fs tc = DocAct.abort msg) :
    env.outcomes tc = TransferOutcome.osError msg := by
  simp only [organize_doc_act] at h
  repeat' split at h
  all_goals cases h
  all_goals assumption

/-- When no transfer raises an uncatchable `OSError`, every handled file
appends exactly one in-memory journal record and the loop completes. -/
theorem orgRunAux_completes (env : OrgEnv)
    (hos : ∀ i m, env.outcomes i ≠ TransferOutcome.osError m) :
    ∀ (ops : List (String × String)) (st : OrgState),
      ∃ r, orgRunAux env ops st = Except.ok r ∧
        r.entries.length = st.entries.length + ops.length := by
  intro ops
  induction ops with
  | nil =>
      intro st
      exact ⟨st, rfl, by simp⟩
  | cons op rest ih =>
      intro st
      have hstep : ∃ st2, organize_doc env op.1 op.2 st = Except.ok st2 ∧
          st2.entries.length = st.entries.length + 1 := by
        unfold organize_doc
        cases hact : organize_doc_act env op.1 op.2 st.fs st.tcount with
        | entry r2 fsNew consumed => exact ⟨_, rfl, by simp⟩
        | abort msg =>
            exact absurd (organize_doc_act_abort env op.1 op.2 st.fs
              st.tcount msg hact) (hos st.tcount msg)
      rcases hstep with ⟨st2, hdoc, hlen⟩
      rcases ih st2 with ⟨r, hrun, hrlen⟩
      refine ⟨r, ?_, ?_⟩
      · unfold orgRunAux
        rw [hdoc]
        exact hrun
      · rw [hrlen, hlen]
        simp [List.length_cons]
        omega

/-- Initial state of the scenario run (as built by `organize_projects`). -/
def dupSt0 : OrgState :=
  { fs := dupFS0, entries := [], jfile := [], attempted := 0, tcount := 0 }

/-- State after the first transfer of the scenario. -/
def dupSt1 : OrgState :=
  { fs := [("t/p/misc/dup.txt", "A"), ("inB/dup.txt", "B")],
    entries :=
      [{ timestamp_ms := 7, code := "MOVE", source := "inA/dup.txt",
         destination := some "t/p/misc/dup.txt" }],
    jfile := [], attempted := 1, tcount := 1 }

/-- Environment in which the first transfer raises a `PermissionError`
(an `OSError` that is not a `shutil.Error`). -/
def c3Env : OrgEnv :=
  { cfg := dupCfg, scored := [dupRecA, dupRecB], hashHex := dupHash,
    outcomes := fun i =>
      if i = 0 then TransferOutcome.osError "Permission denied"
      else TransferOutcome.ok,
    ts := 7 }

/-- State carried by the abort of the `c3Env` run. -/
def c3Abort : OrgState :=
  { fs := dupFS0, entries := [], jfile := [], attempted := 0, tcount := 1 }

/-- **C1, counterexample.**  Organizing the two `dup.txt` files under the
`version` policy does not suffix every transferred file: the run succeeds,
but its first MOVE record's destination is the plain `t/p/misc/dup.txt`,
whose base name does not begin with `dup__` — only the second,
conflicting file receives the content-hash suffix. -/
theorem C1_counterexample :
    organize_projects dupEnv [dupProj] dupFS0 [] = Except.ok dupFinal ∧
    ¬ (∀ r ∈ dupFinal.entries, (r.code = "MOVE" ∨ r.code = "COPY") →
        (pyName (r.destination.getD "")).take 5 = "dup__") := by
  constructor
  · rfl
  · decide

/-- **C1, amended.**  Under the `version` policy the content-hash suffix
is applied only when the plain destination name is already taken: the
`dup.txt` scenario produces `t/p/misc/dup.txt` with content `"A"` and
`t/p/misc/dup__2222222.txt` with content `"B"` (the suffix being the first
7 characters of the hex digest of the second file's content), both
contents unchanged, and one MOVE journal line per transfer. -/
theorem C1_amended_thm :
    organize_projects dupEnv [dupProj] dupFS0 [] = Except.ok dupFinal ∧
    fsLookup dupFinal.fs "t/p/misc/dup.txt" = some "A" ∧
    fsLookup dupFinal.fs "t/p/misc/dup__2222222.txt" = some "B" ∧
    "2222222" = (dupHash "B").take 7 ∧
    dupFinal.jfile = [dupLine1, dupLine2] ∧
    dupFinal.entries.map (fun r => r.code) = ["MOVE", "MOVE"] := by
  refine ⟨rfl, ?_, ?_, ?_, rfl, rfl⟩ <;> decide

/-- Journal line of a completed COPY, used against rollback. -/
def c2Line : String :=
  "\x7b\"ts\": 3, \"code\": \"COPY\", \"src\": \"/s\", \"dst\": \"/d\"\x7d"

/-- **C2, counterexample.**  Rolling back a COPY record does not leave the
original source untouched: with the source holding `"orig"` and the copy
holding `"copycontent"`, rollback moves the copy back onto the source,
overwriting it (the source ends up with the copy's content, not its own). -/
theorem C2_counterexample :
    rollback [c2Line] [("/s", "orig"), ("/d", "copycontent")] =
      Except.ok ([("/s", "copycontent")], 1) ∧
    fsLookup [("/s", "copycontent")] "/s" ≠
      fsLookup [("/s", "orig"), ("/d", "copycontent")] "/s" := by
  constructor
  · rfl
  · decide

/-- **C2, amended.**  Rollback treats MOVE and COPY records identically:
for any journal line recording a transfer `(src, dst)` — either code —
whose destination exists, the destination file is moved back onto the
recorded source path, replacing whatever content the source had (a COPY
destination is thus removed, but the source is overwritten rather than
left untouched). -/
theorem C2_amended_thm (l s d : String) (fs : FS) (v : String)
    (hact : lineAct l = LineAct.act s d) (hdst : fsLookup fs d = some v) :
    rollback [l] fs = Except.ok (fsInsert (fsErase fs d) s v, 1) := by
  simp [rollback, rollbackAux, hact, fsExists, hdst, fsMove]

/-- Witness for C2: the amended statement applied to the concrete COPY
line and filesystem of the counterexample. -/
theorem C2_amended_witness :
    rollback [c2Line] [("/s", "orig"), ("/d", "copycontent")] =
      Except.ok
        (fsInsert (fsErase [("/s", "orig"), ("/d", "copycontent")] "/d")
          "/s" "copycontent", 1) :=
  C2_amended_thm c2Line "/s" "/d" [("/s", "orig"), ("/d", "copycontent")]
    "copycontent" (by decide) (by decide)

/-- **C3, counterexample.**  A transfer failing with an `OSError` that is
not a `shutil.Error` (here a `PermissionError`) is not recorded and does
not let the run continue: the whole organize call aborts on the first
file, no ERROR record is produced, and the journal file stays empty —
the second file's transfer is never attempted. -/
theorem C3_counterexample :
    organize_projects c3Env [dupProj] dupFS0 [] =
      Except.error ("Permission denied", c3Abort) ∧
    c3Abort.jfile = [] ∧ c3Abort.entries = [] := by
  refine ⟨rfl, rfl, rfl⟩

/-- **C3, amended.**  Only `shutil.Error` is caught: when no transfer
raises any other `OSError`, the run completes and the journal file gains
exactly one line per attempted operation (appended in one batch at the
end); when some transfer raises another `OSError`, the exception
propagates, the run aborts, and the journal file is left exactly as it
was — not even the records of the previously successful operations are
written. -/
theorem C3_amended_thm (env : OrgEnv) (projects : List Project) (fs0 : FS)
    (jfile0 : List String) :
    ((∀ i m, env.outcomes i ≠ TransferOutcome.osError m) →
      ∃ st, organize_projects env projects fs0 jfile0 = Except.ok st ∧
        st.jfile.length = jfile0.length + (orgOps env.cfg projects).length) ∧
    (∀ e, organize_projects env projects fs0 jfile0 = Except.error e →
      e.2.jfile = jfile0) := by
  constructor
  · intro hos
    rcases orgRunAux_completes env hos (orgOps env.cfg projects)
        { fs := fs0, entries := [], jfile := jfile0, attempted := 0,
          tcount := 0 } with ⟨r, hrun, hlen⟩
    refine ⟨{ r with jfile := append_journal r.jfile r.entries }, ?_, ?_⟩
    · simp [organize_projects, hrun]
    · have hj := ((orgRunAux_jfile env (orgOps env.cfg projects) _).1) r hrun
      simp only [append_journal, hj] at *
      simp [hlen]
  · intro e h
    simp only [organize_projects] at h
    cases hrun : orgRunAux env (orgOps env.cfg projects)
        { fs := fs0, entries := [], jfile := jfile0, attempted := 0,
          tcount := 0 } with
    | ok st =>
        rw [hrun] at h
        simp at h
    | error e2 =>
        rw [hrun] at h
        simp at h
        rw [← h]
        exact ((orgRunAux_jfile env (orgOps env.cfg projects) _).2) e2 hrun

/-- Witness for C3: the amended statement applied to the all-successful
`dup.txt` run, whose journal gains one line per file. -/
theorem C3_amended_witness :
    ∃ st, organize_projects dupEnv [dupProj] dupFS0 [] = Except.ok st ∧
      st.jfile.length =
        ([] : List String).length + (orgOps dupEnv.cfg [dupProj]).length :=
  (C3_amended_thm dupEnv [dupProj] dupFS0 []).1 (by intro i m; simp [dupEnv])

/-- **C4, counterexample.**  The journal is not flushed per file: along
the trace of the `dup.txt` run, after the first transfer one operation has
been attempted but the on-disk journal still holds zero lines (all records
are appended in a single write after the loop). -/
theorem C4_counterexample :
    (orgTrace dupEnv (orgOps dupCfg [dupProj]) dupSt0).map
        (fun st => (st.attempted, st.jfile.length)) = [(0, 0), (1, 0), (2, 0)] ∧
    ¬ (∀ st ∈ orgTrace dupEnv (orgOps dupCfg [dupProj]) dupSt0,
        st.jfile.length = st.attempted) := by
  constructor
  · rfl
  · decide

/-- **C4, amended.**  Journal records accumulate in memory only: at every
intermediate point of the per-file loop the on-disk journal is exactly the
initial file, and a completed run appends all accumulated records in one
final `append_journal` call. -/
theorem C4_amended_thm (env : OrgEnv) (projects : List Project) (fs0 : FS)
    (jfile0 : List String) :
    (∀ st ∈ orgTrace env (orgOps env.cfg projects)
        { fs := fs0, entries := [], jfile := jfile0, attempted := 0,
          tcount := 0 },
      st.jfile = jfile0) ∧
    (∀ stf, organize_projects env projects fs0 jfile0 = Except.ok stf →
      stf.jfile = append_journal jfile0 stf.entries) := by
  constructor
  · intro st h
    exact orgTrace_jfile env (orgOps env.cfg projects) _ st h
  · intro stf h
    simp only [organize_projects] at h
    cases hrun : orgRunAux env (orgOps env.cfg projects)
        { fs := fs0, entries := [], jfile := jfile0, attempted := 0,
          tcount := 0 } with
    | ok st =>
        rw [hrun] at h
        simp at h
        have hj := ((orgRunAux_jfile env (orgOps env.cfg projects) _).1) st hrun
        rw [← h]
        simp [append_journal, hj]
    | error e2 =>
        rw [hrun] at h
        simp at h

/-- Witness for C4: along the concrete `dup.txt` trace the mid-run state
has an untouched (empty) journal file, and the completed run's journal is
the one-shot append of its records. -/
theorem C4_amended_witness :
    dupSt1.jfile = ([] : List String) ∧
    dupFinal.jfile = append_journal [] dupFinal.entries :=
  ⟨(C4_amended_thm dupEnv [dupProj] dupFS0 []).1 dupSt1 (by decide),
   (C4_amended_thm dupEnv [dupProj] dupFS0 []).2 dupFinal (by decide)⟩

/-! ## Structural lemmas on rollback -/

/-- `shutil.move(p, q)` cannot create a file at a third path: a path that
did not exist and is not the move's target still does not exist. -/
theorem fsLookup_fsMove_none (fs : FS) (p q k : String)
    (h0 : fsLookup fs k = none) (hq : q ≠ k) :
    fsLookup (fsMove fs p q) k = none := by
  unfold fsMove
  cases hv : fsLookup fs p with
  | none => exact h0
  | some v =>
      rw [fsLookup_fsInsert, if_neg hq, fsLookup_fsErase]
      by_cases hk : k = p
      · rw [if_pos hk]
      · rw [if_neg hk]
        exact h0

/-- A rollback run that returned normally never met a line it would raise
on (raising aborts the loop immediately). -/
theorem rollbackAux_ok_no_err :
    ∀ (ls : List String) (fs : FS) (n : Nat) (r),
      rollbackAux ls fs n = Except.ok r →
      ∀ l ∈ ls, ∀ e, lineAct l ≠ LineAct.err e := by
  intro ls
  induction ls with
  | nil =>
      intro fs n r _ l hl
      cases hl
  | cons l0 rest ih =>
      intro fs n r h l hl e hact
      rcases List.mem_cons.mp hl with heq | hmem
      · rw [heq] at hact
        simp [rollbackAux, hact] at h
      · cases hact0 : lineAct l0 with
        | skip =>
            simp [rollbackAux, hact0] at h
            exact ih _ _ _ h l hmem e hact
        | err e0 =>
            simp [rollbackAux, hact0] at h
        | act s d =>
            simp [rollbackAux, hact0] at h
            split at h
            · exact ih _ _ _ h l hmem e hact
            · exact ih _ _ _ h l hmem e hact

/-- A path that exists neither before the rollback nor as the source of
any of its transfer records does not exist afterwards either. -/
theorem rollbackAux_keeps_none :
    ∀ (ls : List String) (fs : FS) (n : Nat) (k : String) (r),
      fsLookup fs k = none →
      (∀ pr ∈ ls.filterMap lineTransfer, pr.1 ≠ k) →
      rollbackAux ls fs n = Except.ok r →
      fsLookup r.1 k = none := by
  intro ls
  induction ls with
  | nil =>
      intro fs n k r h0 _ h
      cases h
      exact h0
  | cons l0 rest ih =>
      intro fs n k r h0 hsrc h
      cases hact0 : lineAct l0 with
      | skip =>
          have hf : lineTransfer l0 = none := by simp [lineTransfer, hact0]
          simp [rollbackAux, hact0] at h
          refine ih _ _ _ _ h0 ?_ h
          intro pr hpr
          exact hsrc pr (by rw [List.filterMap_cons_none hf]; exact hpr)
      | err e0 =>
          simp [rollbackAux, hact0] at h
      | act s d =>
          have hf : lineTransfer l0 = some (s, d) := by
            simp [lineTransfer, hact0]
          have hs : s ≠ k := by
            refine hsrc (s, d) ?_
            rw [List.filterMap_cons_some hf]
            exact List.mem_cons_self _ _
          have hrest : ∀ pr ∈ rest.filterMap lineTransfer, pr.1 ≠ k := by
            intro pr hpr
            refine hsrc pr ?_
            rw [List.filterMap_cons_some hf]
            exact List.mem_cons_of_mem _ hpr
          simp [rollbackAux, hact0] at h
          split at h
          · exact ih _ _ _ _ (fsLookup_fsMove_none fs d s k h0 hs) hrest h
          · exact ih _ _ _ _ h0 hrest h

/-- After a normally-returning rollback of a journal in which no recorded
source path collides with any recorded destination, none of the recorded
destinations exists any more. -/
theorem rollbackAux_clears_dsts :
    ∀ (ls : List String) (fs : FS) (n : Nat) (r),
      (∀ p ∈ ls.filterMap lineTransfer, ∀ q ∈ ls.filterMap lineTransfer,
        p.1 ≠ q.2) →
      rollbackAux ls fs n = Except.ok r →
      ∀ pr ∈ ls.filterMap lineTransfer, fsLookup r.1 pr.2 = none := by
  intro ls
  induction ls with
  | nil =>
      intro fs n r _ _ pr hpr
      simp at hpr
  | cons l0 rest ih =>
      intro fs n r hdisj h pr hpr
      cases hact0 : lineAct l0 with
      | skip =>
          have hf : lineTransfer l0 = none := by simp [lineTransfer, hact0]
          rw [List.filterMap_cons_none hf] at hpr hdisj
          simp [rollbackAux, hact0] at h
          exact ih _ _ _ hdisj h pr hpr
      | err e0 =>
          simp [rollbackAux, hact0] at h
      | act s d =>
          have hf : lineTransfer l0 = some (s, d) := by
            simp [lineTransfer, hact0]
          rw [List.filterMap_cons_some hf] at hpr hdisj
          have hdisj2 : ∀ p ∈ rest.filterMap lineTransfer,
              ∀ q ∈ rest.filterMap lineTransfer, p.1 ≠ q.2 := by
            intro p hp q hq
            exact hdisj p (List.mem_cons_of_mem _ hp) q (List.mem_cons_of_mem _ hq)
          have hsrc_ne_d : ∀ pr2 ∈ rest.filterMap lineTransfer, pr2.1 ≠ d := by
            intro pr2 hpr2
            exact hdisj pr2 (List.mem_cons_of_mem _ hpr2) (s, d)
              (List.mem_cons_self _ _)
          simp [rollbackAux, hact0] at h
          split at h
          · rename_i hex
            have hsd : s ≠ d :=
              hdisj (s, d) (List.mem_cons_self _ _) (s, d) (List.mem_cons_self _ _)
            have hv : ∃ v, fsLookup fs d = some v := by
              rcases hv2 : fsLookup fs d with _ | v
              · rw [fsExists, hv2] at hex
                simp at hex
              · exact ⟨v, rfl⟩
            rcases hv with ⟨v, hv⟩
            have hmoved : fsLookup (fsMove fs d s) d = none := by
              unfold fsMove
              rw [hv, fsLookup_fsInsert, if_neg hsd, fsLookup_fsErase, if_pos rfl]
            rcases List.mem_cons.mp hpr with hpr1 | hpr1
            · rw [hpr1]
              exact rollbackAux_keeps_none rest _ _ _ _ hmoved hsrc_ne_d h
            · exact ih _ _ _ hdisj2 h pr hpr1
          · rename_i hex
            have hnone : fsLookup fs d = none := by
              rcases hv2 : fsLookup fs d with _ | v
              · rfl
              · rw [fsExists, hv2] at hex
                simp at hex
            rcases List.mem_cons.mp hpr with hpr1 | hpr1
            · rw [hpr1]
              exact rollbackAux_keeps_none rest _ _ _ _ hnone hsrc_ne_d h
            · exact ih _ _ _ hdisj2 h pr hpr1

/-- A rollback pass over a journal none of whose recorded destinations
exists (and whose lines raise nothing) is the identity: it performs zero
restorations. -/
theorem rollbackAux_noop :
    ∀ (ls : List String) (fs : FS) (n : Nat),
      (∀ l ∈ ls, ∀ e, lineAct l ≠ LineAct.err e) →
      (∀ pr ∈ ls.filterMap lineTransfer, fsLookup fs pr.2 = none) →
      rollbackAux ls fs n = Except.ok (fs, n) := by
  intro ls
  induction ls with
  | nil =>
      intro fs n _ _
      rfl
  | cons l0 rest ih =>
      intro fs n hne hdst
      cases hact0 : lineAct l0 with
      | skip =>
          have hf : lineTransfer l0 = none := by simp [lineTransfer, hact0]
          simp only [rollbackAux, hact0]
          refine ih fs n ?_ ?_
          · intro l hl e
            exact hne l (List.mem_cons_of_mem _ hl) e
          · intro pr hpr
            exact hdst pr (by rw [List.filterMap_cons_none hf]; exact hpr)
      | err e0 =>
          exact absurd hact0 (hne l0 (List.mem_cons_self _ _) e0)
      | act s d =>
          have hf : lineTransfer l0 = some (s, d) := by
            simp [lineTransfer, hact0]
          have hd : fsLookup fs d = none := by
            refine hdst (s, d) ?_
            rw [List.filterMap_cons_some hf]
            exact List.mem_cons_self _ _
          simp only [rollbackAux, hact0]
          rw [if_neg (by rw [fsExists, hd]; simp)]
          refine ih fs n ?_ ?_
          · intro l hl e
            exact hne l (List.mem_cons_of_mem _ hl) e
          · intro pr hpr
            exact hdst pr (by
              rw [List.filterMap_cons_some hf]
              exact List.mem_cons_of_mem _ hpr)

/-- Transfers of a reversed journal are the same set of pairs. -/
theorem mem_transfersOf_reverse (lines : List String) (pr : String × String) :
    pr ∈ transfersOf lines.reverse ↔ pr ∈ transfersOf lines := by
  simp [transfersOf, List.mem_filterMap, List.mem_reverse]

/-- Lines failing JSON decoding act as `continue`: a rollback pass equals
the pass over the journal with its malformed lines removed, and (when all
remaining lines are well-formed) returns normally. -/
theorem rollbackAux_skip_malformed :
    ∀ (ls : List String) (fs : FS) (n : Nat),
      (∀ l ∈ ls, lineWellFormed l ∨ decodeFails l) →
      (∃ r, rollbackAux ls fs n = Except.ok r) ∧
      rollbackAux ls fs n = rollbackAux (ls.filter lineWellFormed) fs n := by
  intro ls
  induction ls with
  | nil =>
      intro fs n _
      exact ⟨⟨(fs, n), rfl⟩, rfl⟩
  | cons l0 rest ih =>
      intro fs n hwf
      have hl0 := hwf l0 (List.mem_cons_self _ _)
      have hrest : ∀ l ∈ rest, lineWellFormed l ∨ decodeFails l :=
        fun l hl => hwf l (List.mem_cons_of_mem _ hl)
      by_cases hdf : decodeFails l0 = true
      · have hp : parseLine l0 = ParseOut.decodeErr := of_decide_eq_true hdf
        have hact0 : lineAct l0 = LineAct.skip := by simp [lineAct, hp]
        have hwf0 : lineWellFormed l0 = false := by
          simp [lineWellFormed, hact0, decodeFails, hp]
        constructor
        · rcases (ih fs n hrest).1 with ⟨r, hr⟩
          exact ⟨r, by simp [rollbackAux, hact0, hr]⟩
        · simp only [rollbackAux, hact0, List.filter_cons, hwf0]
          simp only [Bool.false_eq_true, if_false]
          exact (ih fs n hrest).2
      · have hwf0 : lineWellFormed l0 = true := by
          rcases hl0 with h | h
          · exact h
          · exact absurd h hdf
        cases hact0 : lineAct l0 with
        | err e0 =>
            rw [lineWellFormed, hact0] at hwf0
            simp at hwf0
        | skip =>
            constructor
            · rcases (ih fs n hrest).1 with ⟨r, hr⟩
              exact ⟨r, by simp [rollbackAux, hact0, hr]⟩
            · simp only [rollbackAux, hact0, List.filter_cons, hwf0, if_true]
              exact (ih fs n hrest).2
        | act s d =>
            by_cases hex : fsExists fs d
            · have hstep : ∀ (l1 : List String),
                  rollbackAux (l0 :: l1) fs n =
                    rollbackAux l1 (fsMove fs d s) (n + 1) := by
                intro l1
                simp [rollbackAux, hact0, hex]
              constructor
              · rcases (ih (fsMove fs d s) (n + 1) hrest).1 with ⟨r, hr⟩
                exact ⟨r, by rw [hstep rest]; exact hr⟩
              · rw [hstep rest, List.filter_cons, if_pos hwf0,
                    hstep (rest.filter lineWellFormed)]
                exact (ih (fsMove fs d s) (n + 1) hrest).2
            · have hstep : ∀ (l1 : List String),
                  rollbackAux (l0 :: l1) fs n = rollbackAux l1 fs n := by
                intro l1
                simp [rollbackAux, hact0, hex]
              constructor
              · rcases (ih fs n hrest).1 with ⟨r, hr⟩
                exact ⟨r, by rw [hstep rest]; exact hr⟩
              · rw [hstep rest, List.filter_cons, if_pos hwf0,
                    hstep (rest.filter lineWellFormed)]
                exact (ih fs n hrest).2

/-- Filtering commutes with reversing the journal. -/
theorem filter_reverse_comm (p : String → Bool) (l : List String) :
    l.reverse.filter p = (l.filter p).reverse := by
  induction l with
  | nil => rfl
  | cons a t ih =>
      simp only [List.reverse_cons, List.filter_append, List.filter_cons, ih]
      cases hp : p a <;> simp

/-- Chronologically first journal line of the idempotence counterexample:
`A` was moved to `C`. -/
def c6Line1 : String :=
  "\x7b\"code\": \"MOVE\", \"src\": \"/A\", \"dst\": \"/C\"\x7d"

/-- Second journal line of the counterexample: `B` was moved to `A`. -/
def c6Line2 : String :=
  "\x7b\"code\": \"MOVE\", \"src\": \"/B\", \"dst\": \"/A\"\x7d"

/-- **C6, counterexample.**  Rollback is not idempotent for every journal
file: over the journal `[A→C, B→A]` and the filesystem
`{A ↦ u, C ↦ w}`, the first rollback yields `{A ↦ w, B ↦ u}` with two
restorations, but a second rollback still finds destination `/A`
occupied, performs one more restoration, and destroys `u`, ending in
`{B ↦ w}` — a different state. -/
theorem C6_counterexample :
    rollback [c6Line1, c6Line2] [("/A", "u"), ("/C", "w")] =
      Except.ok ([("/A", "w"), ("/B", "u")], 2) ∧
    rollback [c6Line1, c6Line2] [("/A", "w"), ("/B", "u")] =
      Except.ok ([("/B", "w")], 1) ∧
    ([("/B", "w")] : FS) ≠ [("/A", "w"), ("/B", "u")] := by
  refine ⟨rfl, rfl, by decide⟩

/-- **C6, amended.**  Rollback is idempotent for journals in which no
recorded source path coincides with any transfer record's destination
(in particular for organize journals whose destinations all lie under the
target root and sources outside it): after one successful rollback, every
recorded destination is absent, so a second run performs zero
restorations, raises nothing, and leaves the filesystem unchanged. -/
theorem C6_amended_thm (lines : List String) (fs fs1 : FS) (n1 : Nat)
    (h1 : rollback lines fs = Except.ok (fs1, n1))
    (hdisj : ∀ p ∈ transfersOf lines, ∀ q ∈ transfersOf lines, p.1 ≠ q.2) :
    rollback lines fs1 = Except.ok (fs1, 0) := by
  have h1' : rollbackAux lines.reverse fs 0 = Except.ok (fs1, n1) := h1
  have hdisj' : ∀ p ∈ (lines.reverse).filterMap lineTransfer,
      ∀ q ∈ (lines.reverse).filterMap lineTransfer, p.1 ≠ q.2 := by
    intro p hp q hq
    exact hdisj p ((mem_transfersOf_reverse lines p).mp hp)
      q ((mem_transfersOf_reverse lines q).mp hq)
  have hne := rollbackAux_ok_no_err lines.reverse fs 0 (fs1, n1) h1'
  have hcl := rollbackAux_clears_dsts lines.reverse fs 0 (fs1, n1) hdisj' h1'
  exact rollbackAux_noop lines.reverse fs1 0 hne (fun pr hpr => hcl pr hpr)

/-- Witness for C6: a one-line journal `MOVE /x → /y` over `{y ↦ v}`
restores once; running rollback again restores nothing and keeps the
state. -/
theorem C6_amended_witness :
    rollback ["\x7b\"code\": \"MOVE\", \"src\": \"/x\", \"dst\": \"/y\"\x7d"]
      [("/x", "v")] = Except.ok ([("/x", "v")], 0) :=
  C6_amended_thm ["\x7b\"code\": \"MOVE\", \"src\": \"/x\", \"dst\": \"/y\"\x7d"]
    [("/y", "v")] [("/x", "v")] 1 (by rfl) (by decide)

/-- A valid MOVE line whose destination exists. -/
def c7Valid : String :=
  "\x7b\"ts\": 4, \"code\": \"MOVE\", \"src\": \"/vs\", \"dst\": \"/vd\"\x7d"

/-- A journal line truncated mid-write (invalid JSON). -/
def c7Trunc : String :=
  "\x7b\"ts\": 5, \"code\": \"MO"

/-- **C7.**  Rollback over a journal mixing well-formed record lines with
lines that fail JSON parsing raises nothing and behaves exactly as the
rollback of the journal with the malformed lines removed — in particular
every valid MOVE whose destination exists is still restored. -/
theorem C7_thm (lines : List String) (fs : FS)
    (hwf : ∀ l ∈ lines, lineWellFormed l ∨ decodeFails l) :
    (∃ r, rollback lines fs = Except.ok r) ∧
    rollback lines fs = rollback (lines.filter lineWellFormed) fs := by
  have hrev : ∀ l ∈ lines.reverse, lineWellFormed l ∨ decodeFails l := by
    intro l hl
    exact hwf l (List.mem_reverse.mp hl)
  have core := rollbackAux_skip_malformed lines.reverse fs 0 hrev
  constructor
  · exact core.1
  · have hfr := filter_reverse_comm lineWellFormed lines
    unfold rollback
    rw [← hfr]
    exact core.2

/-- Witness for C7: the spec's scenario — one valid MOVE line plus one
truncated line — rolls back without an exception and equals the rollback
of the journal without the corrupt line. -/
theorem C7_witness :
    (∃ r, rollback [c7Valid, c7Trunc] [("/vd", "data")] = Except.ok r) ∧
    rollback [c7Valid, c7Trunc] [("/vd", "data")] =
      rollback ([c7Valid, c7Trunc].filter lineWellFormed) [("/vd", "data")] :=
  C7_thm [c7Valid, c7Trunc] [("/vd", "data")] (by decide)

/-- A schema-invalid journal line: valid JSON, code MOVE, no `src` key. -/
def c10Line : String :=
  "\x7b\"ts\": 1, \"code\": \"MOVE\", \"dst\": \"/d\"\x7d"

/-- **C10.**  Rollback's tolerance covers only JSON-decode failures: a
line that is valid JSON with code `MOVE` but no `"src"` member makes
`data["src"]` raise an uncaught `KeyError` (before the destination is even
examined), aborting the rollback on any filesystem. -/
theorem C10_thm (fs : FS) :
    rollback [c10Line] fs = Except.error RbErr.keyError := rfl

/-! ## Structural lemmas on the scanner -/

/-- The errors an event stream denotes: one `ScanError` per reported walk
error and per failed stat/read, in order. -/
def errEvents (evs : List WEvent) : List ScanError :=
  evs.filterMap (fun e =>
    match e with
    | WEvent.werr p m => some ⟨p, m⟩
    | WEvent.wfile p (Except.error m) => some ⟨p, m⟩
    | WEvent.wfile _ (Except.ok _) => none)

/-- Items accounted for by a state: everything already yielded plus the
current batch, error list and pending walker errors. -/
def stCount (st : RState) : Nat :=
  deliveredCount st.out + st.batch.length + st.errs.length + st.pending.length

/-- Errors accounted for by a state, in delivery order. -/
def stErrors (st : RState) : List ScanError :=
  deliveredErrors st.out ++ st.errs ++ st.pending

/-- `bumpReads` only touches the token-read counter. -/
theorem bumpReads_fields (env : ScanEnv) (st : RState) :
    (bumpReads env st).out = st.out ∧ (bumpReads env st).batch = st.batch ∧
    (bumpReads env st).errs = st.errs ∧
    (bumpReads env st).pending = st.pending ∧
    (bumpReads env st).discovered = st.discovered := by
  unfold bumpReads
  cases env.sched <;> simp

/-- With no token and no timeouts configured the guard never raises. -/
theorem ensure_limits_none (env : ScanEnv) (hs : env.sched = none)
    (hov : env.opts.overall_timeout = none)
    (hpb : env.opts.per_batch_timeout = none) :
    ∀ (st : RState) (now : Nat), _ensure_limits env st now = none := by
  intro st now
  simp [_ensure_limits, hs, hov, hpb]

/-- With a token and no timeouts, the guard reads the schedule at the
current read index and raises exactly when that reading is `true`. -/
theorem ensure_limits_token (env : ScanEnv) (f : Nat → Bool)
    (hs : env.sched = some f) (hov : env.opts.overall_timeout = none)
    (hpb : env.opts.per_batch_timeout = none) :
    ∀ (st : RState) (now : Nat),
      _ensure_limits env st now =
        if f st.reads then some ScanFail.cancelled else none := by
  intro st now
  cases hc : f st.reads <;> simp [_ensure_limits, hs, hov, hpb, hc]

/-- `deliveredCount` is additive over batch lists. -/
theorem deliveredCount_append (a b : List ScanBatch) :
    deliveredCount (a ++ b) = deliveredCount a + deliveredCount b := by
  simp [deliveredCount]

/-- `deliveredErrors` is additive over batch lists. -/
theorem deliveredErrors_append (a b : List ScanBatch) :
    deliveredErrors (a ++ b) = deliveredErrors a ++ deliveredErrors b := by
  simp [deliveredErrors]

/-- Flushing pending errors moves items between buckets without changing
what is accounted for, and empties the pending queue. -/
theorem flushPending_facts (st : RState) :
    stCount (flushPending st) = stCount st ∧
    stErrors (flushPending st) = stErrors st ∧
    (flushPending st).pending = [] := by
  unfold flushPending
  split
  · refine ⟨?_, ?_, rfl⟩
    · simp [stCount]
      omega
    · simp [stErrors]
  · rename_i hp
    simp at hp
    exact ⟨rfl, rfl, hp⟩

/-- Accounting of one processed file event: when no guard raises, exactly
one item leaves the walker's hands — either a record into the batch or a
`ScanError` into the error list — and nothing already accounted for is
dropped or duplicated by the batch flush. -/
theorem processFile_conserves (env : ScanEnv) (p : String)
    (res : Except String FileMeta) (st st2 : RState)
    (h : processFile env p res st = (st2, none)) :
    stCount st2 = stCount st + 1 ∧
    stErrors st2 = stErrors st ++ errEvents [WEvent.wfile p res] := by
  have hfc := flushPending_facts st
  rw [← hfc.1, ← hfc.2.1]
  unfold processFile at h
  simp only [readClock] at h
  cases hsch : env.sched <;> simp only [bumpReads, hsch] at h
  all_goals generalize hS : flushPending st = S at h hfc
  all_goals obtain ⟨-, -, hSp⟩ := hfc
  all_goals repeat' split at h
  all_goals simp only [Prod.mk.injEq] at h
  all_goals obtain ⟨h1, h2⟩ := h
  all_goals first
    | exact Option.noConfusion h2
    | (subst h1
       refine ⟨?_, ?_⟩
       · simp [stCount, deliveredCount_append, deliveredCount, errEvents,
           emit_progress, hSp]
         omega
       · simp [stErrors, deliveredErrors_append, deliveredErrors, errEvents,
           emit_progress, hSp])

/-- Accounting of one reported walk error: exactly one `ScanError` is
queued. -/
theorem handleWalkError_conserves (env : ScanEnv) (st : RState)
    (p msg : String) :
    stCount (handleWalkError env st p msg) = stCount st + 1 ∧
    stErrors (handleWalkError env st p msg) = stErrors st ++ [⟨p, msg⟩] := by
  unfold handleWalkError
  by_cases hc : env.hasCallback
  · constructor
    · simp [hc, readClock, emit_progress, stCount]
      omega
    · simp [hc, readClock, emit_progress, stErrors]
  · constructor
    · simp [hc, stCount]
      omega
    · simp [hc, stErrors]

/-- One event's worth of `errEvents` splits off the head. -/
theorem errEvents_cons (e : WEvent) (evs : List WEvent) :
    errEvents (e :: evs) = errEvents [e] ++ errEvents evs := by
  cases e with
  | werr p m => simp [errEvents]
  | wfile p res => cases res <;> simp [errEvents]

/-- Conservation through the whole event loop: a loop that ends without a
fatal failure accounts for every event exactly once, and accumulates
every error event in order. -/
theorem scanLoop_conserves (env : ScanEnv) :
    ∀ (evs : List WEvent) (st st2 : RState),
      scanLoop env evs st = (st2, none) →
      stCount st2 = stCount st + evs.length ∧
      stErrors st2 = stErrors st ++ errEvents evs := by
  intro evs
  induction evs with
  | nil =>
      intro st st2 h
      cases h
      constructor
      · simp
      · simp [errEvents]
  | cons ev rest ih =>
      intro st st2 h
      cases ev with
      | werr p msg =>
          simp only [scanLoop] at h
          have hw := handleWalkError_conserves env st p msg
          have hr := ih _ _ h
          constructor
          · rw [hr.1, hw.1]
            simp
            omega
          · rw [hr.2, hw.2, errEvents_cons]
            simp [errEvents]
      | wfile p res =>
          simp only [scanLoop] at h
          cases hp : processFile env p res st with
          | mk st3 o =>
              rw [hp] at h
              cases o with
              | some f => simp at h
              | none =>
                  simp only [] at h
                  have hpc := processFile_conserves env p res st st3 hp
                  have hr := ih _ _ h
                  constructor
                  · rw [hr.1, hpc.1]
                    simp
                    omega
                  · rw [hr.2, hpc.2, errEvents_cons (WEvent.wfile p res) rest]
                    simp [List.append_assoc]

/-- `deliveredCount` of a single batch. -/
theorem deliveredCount_singleton (b : ScanBatch) :
    deliveredCount [b] = b.records.length + b.errors.length := by
  simp [deliveredCount]

/-- `deliveredErrors` of a single batch. -/
theorem deliveredErrors_singleton (b : ScanBatch) :
    deliveredErrors [b] = b.errors := by
  simp [deliveredErrors]

/-- Conservation through `scan_batches`: a completed scan delivers, across
its yielded batches, exactly one item per walker event — every stat'd file
as a record, every failed file or walk error as a `ScanError` — with the
errors in event order and nothing left undelivered. -/
theorem scan_batches_conserves (env : ScanEnv) (evs : List WEvent)
    (st2 : RState) (h : scan_batches env evs = (st2, none)) :
    deliveredCount st2.out = evs.length ∧
    deliveredErrors st2.out = errEvents evs := by
  unfold scan_batches at h
  cases hl : scanLoop env evs (initState env) with
  | mk stL o =>
      rw [hl] at h
      cases o with
      | some f => simp at h
      | none =>
          have hc := scanLoop_conserves env evs (initState env) stL hl
          have hcount : stCount stL = evs.length := by
            rw [hc.1]
            simp [initState, stCount, deliveredCount]
          have herr : stErrors stL = errEvents evs := by
            rw [hc.2]
            simp [initState, stErrors, deliveredErrors]
          have hf := flushPending_facts stL
          simp only [] at h
          generalize hS : flushPending stL = S at h hf
          obtain ⟨hf1, hf2, hf3⟩ := hf
          have hScount : stCount S = evs.length := by rw [hf1, hcount]
          have hSerr : stErrors S = errEvents evs := by rw [hf2, herr]
          simp only [stCount, hf3, List.length_nil] at hScount
          simp only [stErrors, hf3, List.append_nil] at hSerr
          simp only [readClock] at h
          by_cases hy : S.batch ≠ [] ∨ S.errs ≠ []
          · rw [if_pos hy] at h
            by_cases hcb : env.hasCallback = true
            · rw [if_pos hcb] at h
              simp only [Prod.mk.injEq] at h
              obtain ⟨h1, -⟩ := h
              subst h1
              constructor
              · simp [emit_progress, deliveredCount_append,
                  deliveredCount_singleton]
                omega
              · simpa [emit_progress, deliveredErrors_append,
                  deliveredErrors_singleton] using hSerr
            · rw [if_neg hcb] at h
              simp only [Prod.mk.injEq] at h
              obtain ⟨h1, -⟩ := h
              subst h1
              constructor
              · simp [deliveredCount_append, deliveredCount_singleton]
                omega
              · simpa [deliveredErrors_append, deliveredErrors_singleton]
                  using hSerr
          · rw [if_neg hy] at h
            have hb1 : S.batch = [] := by
              by_contra hx
              exact hy (Or.inl hx)
            have hb2 : S.errs = [] := by
              by_contra hx
              exact hy (Or.inr hx)
            rw [hb1] at hScount
            rw [hb2] at hScount hSerr
            simp only [List.length_nil, List.append_nil] at hScount hSerr
            by_cases hcb : env.hasCallback = true
            · rw [if_pos hcb] at h
              simp only [Prod.mk.injEq] at h
              obtain ⟨h1, -⟩ := h
              subst h1
              refine ⟨?_, ?_⟩
              · show deliveredCount S.out = evs.length
                omega
              · show deliveredErrors S.out = errEvents evs
                exact hSerr
            · rw [if_neg hcb] at h
              simp only [Prod.mk.injEq] at h
              obtain ⟨h1, -⟩ := h
              subst h1
              refine ⟨?_, ?_⟩
              · show deliveredCount S.out = evs.length
                omega
              · show deliveredErrors S.out = errEvents evs
                exact hSerr

/-- With no token and no timeouts a file step never fails. -/
theorem processFile_noFail (env : ScanEnv) (hs : env.sched = none)
    (hov : env.opts.overall_timeout = none)
    (hpb : env.opts.per_batch_timeout = none)
    (p : String) (res : Except String FileMeta) (st : RState) :
    (processFile env p res st).2 = none := by
  unfold processFile
  simp [readClock, ensure_limits_none env hs hov hpb]

/-- With no token and no timeouts the event loop never fails. -/
theorem scanLoop_noFail (env : ScanEnv) (hs : env.sched = none)
    (hov : env.opts.overall_timeout = none)
    (hpb : env.opts.per_batch_timeout = none) :
    ∀ (evs : List WEvent) (st : RState), (scanLoop env evs st).2 = none := by
  intro evs
  induction evs with
  | nil =>
      intro st
      rfl
  | cons ev rest ih =>
      intro st
      cases ev with
      | werr p msg =>
          simp only [scanLoop]
          exact ih _
      | wfile p res =>
          simp only [scanLoop]
          cases hp : processFile env p res st with
          | mk st3 o =>
              have h2 := processFile_noFail env hs hov hpb p res st
              rw [hp] at h2
              simp at h2
              subst h2
              exact ih _

/-- With no token and no timeouts the whole scan call completes. -/
theorem scan_batches_noFail (env : ScanEnv) (hs : env.sched = none)
    (hov : env.opts.overall_timeout = none)
    (hpb : env.opts.per_batch_timeout = none) (evs : List WEvent) :
    (scan_batches env evs).2 = none := by
  unfold scan_batches
  cases hl : scanLoop env evs (initState env) with
  | mk stL o =>
      have h2 := scanLoop_noFail env hs hov hpb evs (initState env)
      rw [hl] at h2
      simp at h2
      subst h2
      simp [readClock]

/-- `fnmatch` instance for scenarios that configure no glob patterns (the
function is then never consulted). -/
def noPat : String → String → Bool := fun _ _ => false

/-- Scan environment of the missing-root scenario: two roots, the first
missing; no token, no timeouts, no callback. -/
def c5Env : ScanEnv :=
  { opts := { roots := ["r1", "r2"] }, sched := none, clock := fun i => i,
    hasCallback := false, shaText := fun s => s,
    guessMimeText := fun _ => false }

/-- World of the missing-root scenario: only `r2` exists, holding one
readable file. -/
def c5World : List (String × FsNode) :=
  [("r2", FsNode.dirOk "r2"
      [FsNode.file "a.txt" (Except.ok { size := 3, mtime := 9, content := "hey" })])]

/-- **C5, counterexample.**  A missing root does not stop the scan with a
fatal failure: scanning roots `[r1, r2]` with `r1` absent completes
normally (`fail = none`), the missing root surfaces as the per-item
`ScanError` `"missing root: r1"` inside the yielded batch, and the scan
continued over `r2`, whose file is recorded in the same batch. -/
theorem C5_counterexample :
    (scanRun noPat c5Env c5World).2 = none ∧
    deliveredErrors ((scanRun noPat c5Env c5World).1).out =
      [⟨"r1", "missing root: r1"⟩] ∧
    ((scanRun noPat c5Env c5World).1).out.map
        (fun b => b.records.map (fun r => r.path)) = [["r2/a.txt"]] := by
  refine ⟨rfl, rfl, rfl⟩

/-- **C5, amended.**  A missing root is reported through the walker's
error handler as a per-item `ScanError` with message `missing root: <r>`
and the scan continues over the remaining roots: with no token and no
timeouts configured the call always completes normally, and the missing
root's error is delivered in one of the yielded batches. -/
theorem C5_amended_thm (matchPat : String → String → Bool) (env : ScanEnv)
    (world : List (String × FsNode)) (r : String)
    (hs : env.sched = none) (hov : env.opts.overall_timeout = none)
    (hpb : env.opts.per_batch_timeout = none)
    (hr : r ∈ env.opts.roots)
    (hmiss : world.find? (fun e => e.1 = r) = none) :
    (scanRun matchPat env world).2 = none ∧
    (⟨r, "missing root: " ++ r⟩ : ScanError) ∈
      deliveredErrors ((scanRun matchPat env world).1).out := by
  have hcomplete :=
    scan_batches_noFail env hs hov hpb (iter_files matchPat env.opts world)
  constructor
  · exact hcomplete
  · have hpair : scanRun matchPat env world =
        ((scanRun matchPat env world).1, none) := by
      rw [← hcomplete]
      rfl
    have hcons :=
      (scan_batches_conserves env (iter_files matchPat env.opts world) _ hpair).2
    rw [hcons]
    have hev : WEvent.werr r ("missing root: " ++ r) ∈
        iter_files matchPat env.opts world := by
      unfold iter_files
      refine List.mem_flatMap.mpr ⟨r, hr, ?_⟩
      unfold _walk_root
      simp [hmiss]
    exact List.mem_filterMap.mpr ⟨WEvent.werr r ("missing root: " ++ r), hev, rfl⟩

/-- Witness for C5: the amended statement at the concrete two-root world
with `r1` missing. -/
theorem C5_amended_witness :
    (scanRun noPat c5Env c5World).2 = none ∧
    (⟨"r1", "missing root: r1"⟩ : ScanError) ∈
      deliveredErrors ((scanRun noPat c5Env c5World).1).out :=
  C5_amended_thm noPat c5Env c5World "r1" rfl rfl rfl (by decide) rfl

/-- **C8.**  Conservation: a completed scan delivers, across its yielded
batches, one item per walker-visited entry — the records plus the errors
(including walk errors) add up to exactly the number of walker events, so
no entry is double-counted or silently dropped. -/
theorem C8_thm (matchPat : String → String → Bool) (env : ScanEnv)
    (world : List (String × FsNode)) (st2 : RState)
    (h : scanRun matchPat env world = (st2, none)) :
    deliveredCount st2.out = (iter_files matchPat env.opts world).length :=
  (scan_batches_conserves env (iter_files matchPat env.opts world) st2 h).1

/-- Scan environment of the conservation witness. -/
def c8Env : ScanEnv :=
  { opts := { roots := ["r"] }, sched := none, clock := fun i => i,
    hasCallback := false, shaText := fun s => s,
    guessMimeText := fun _ => false }

/-- World of the conservation witness: one readable file and one whose
stat fails. -/
def c8World : List (String × FsNode) :=
  [("r", FsNode.dirOk "r"
      [FsNode.file "a.txt" (Except.ok { size := 3, mtime := 1, content := "hi" }),
       FsNode.file "bad.bin" (Except.error "Permission denied")])]

/-- Witness for C8: one record plus one error equals the two visited
entries. -/
theorem C8_witness :
    deliveredCount ((scanRun noPat c8Env c8World).1).out =
      (iter_files noPat c8Env.opts c8World).length :=
  C8_thm noPat c8Env c8World ((scanRun noPat c8Env c8World).1) (by rfl)

/-- The error handler touches neither the token-read counter nor the
discovered count. -/
theorem handleWalkError_rd (env : ScanEnv) (st : RState) (p msg : String) :
    (handleWalkError env st p msg).reads = st.reads ∧
    (handleWalkError env st p msg).discovered = st.discovered := by
  unfold handleWalkError
  by_cases hc : env.hasCallback <;> simp [hc, readClock, emit_progress]

set_option maxHeartbeats 1000000 in
/-- Behaviour of one file step under a cancellation token and no
timeouts: the guard is consulted at read indices `st.reads` (before the
stat) and `st.reads + 1` (after it); a `true` reading at the first index
cancels before the file is counted, one at the second index cancels after
exactly this one file, and otherwise the step completes having consumed
two readings and one file. -/
theorem processFile_token_cases (env : ScanEnv) (f : Nat → Bool)
    (hs : env.sched = some f) (hov : env.opts.overall_timeout = none)
    (hpb : env.opts.per_batch_timeout = none)
    (p : String) (res : Except String FileMeta) (st : RState) :
    (f st.reads = true ∧
       (processFile env p res st).2 = some ScanFail.cancelled ∧
       ((processFile env p res st).1).discovered = st.discovered) ∨
    (f st.reads = false ∧ f (st.reads + 1) = true ∧
       (processFile env p res st).2 = some ScanFail.cancelled ∧
       ((processFile env p res st).1).discovered = st.discovered + 1) ∨
    (f st.reads = false ∧ f (st.reads + 1) = false ∧
       (processFile env p res st).2 = none ∧
       ((processFile env p res st).1).discovered = st.discovered + 1 ∧
       ((processFile env p res st).1).reads = st.reads + 2) := by
  have hfp : (flushPending st).reads = st.reads ∧
      (flushPending st).discovered = st.discovered := by
    unfold flushPending
    split <;> simp
  unfold processFile
  simp only [readClock]
  generalize hS : flushPending st = S at hfp ⊢
  obtain ⟨hr, hd⟩ := hfp
  rw [← hr, ← hd]
  simp only [ensure_limits_token env f hs hov hpb]
  cases h1 : f S.reads with
  | true =>
      refine Or.inl ⟨?_, ?_, ?_⟩ <;> simp [h1, bumpReads, hs]
  | false =>
      simp only [h1, if_false]
      cases res with
      | ok meta =>
          simp only [bumpReads, hs]
          cases h2 : f (S.reads + 1) with
          | true =>
              refine Or.inr (Or.inl ⟨?_, ?_, ?_, ?_⟩) <;>
                simp [h2, bumpReads, hs]
          | false =>
              refine Or.inr (Or.inr ⟨?_, ?_, ?_, ?_, ?_⟩) <;>
                (try simp only [h2, if_false]) <;>
                (repeat' split) <;>
                simp_all [emit_progress]
      | error msg =>
          simp only [bumpReads, hs]
          cases h2 : f (S.reads + 1) with
          | true =>
              refine Or.inr (Or.inl ⟨?_, ?_, ?_, ?_⟩) <;>
                simp [h2, bumpReads, hs]
          | false =>
              refine Or.inr (Or.inr ⟨?_, ?_, ?_, ?_, ?_⟩) <;>
                (try simp only [h2, if_false]) <;>
                (repeat' split) <;>
                simp_all [emit_progress]

/-- Cancellation latency through the event loop: starting from a state
whose `2·discovered` token readings have all come back `false`, if the
schedule reads `true` at index `T`, then the loop stops having counted
at most `T/2 + 1` files — at most one file beyond the point where
cancellation struck. -/
theorem scanLoop_cancel_bound (env : ScanEnv) (f : Nat → Bool) (T : Nat)
    (hs : env.sched = some f) (hov : env.opts.overall_timeout = none)
    (hpb : env.opts.per_batch_timeout = none)
    (hT : f T = true) :
    ∀ (evs : List WEvent) (st : RState),
      st.reads = 2 * st.discovered →
      (∀ j, j < st.reads → f j = false) →
      ((scanLoop env evs st).1).discovered ≤ T / 2 + 1 := by
  intro evs
  induction evs with
  | nil =>
      intro st hinv hfalse
      have hTr : st.reads ≤ T := by
        by_contra hlt
        push_neg at hlt
        have hcontra := hfalse T hlt
        rw [hT] at hcontra
        cases hcontra
      simp only [scanLoop]
      omega
  | cons ev rest ih =>
      intro st hinv hfalse
      cases ev with
      | werr p msg =>
          simp only [scanLoop]
          have hrd := handleWalkError_rd env st p msg
          refine ih _ ?_ ?_
          · rw [hrd.1, hrd.2]
            exact hinv
          · rw [hrd.1]
            exact hfalse
      | wfile p res =>
          simp only [scanLoop]
          rcases processFile_token_cases env f hs hov hpb p res st with
            ⟨hc1, hc2, hc3⟩ | ⟨hc1, hc2, hc3, hc4⟩ | ⟨hc1, hc2, hc3, hc4, hc5⟩
          · cases hp : processFile env p res st with
            | mk X o =>
                rw [hp] at hc2 hc3
                simp only [] at hc2 hc3
                subst hc2
                show X.discovered ≤ T / 2 + 1
                have hTr : st.reads ≤ T := by
                  by_contra hlt
                  push_neg at hlt
                  have hcontra := hfalse T hlt
                  rw [hT] at hcontra
                  cases hcontra
                omega
          · cases hp : processFile env p res st with
            | mk X o =>
                rw [hp] at hc3 hc4
                simp only [] at hc3 hc4
                subst hc3
                show X.discovered ≤ T / 2 + 1
                have hTr : st.reads + 1 ≤ T := by
                  by_contra hlt
                  push_neg at hlt
                  rcases Nat.lt_or_ge T st.reads with h | h
                  · have hcontra := hfalse T h
                    rw [hT] at hcontra
                    cases hcontra
                  · have hTeq : T = st.reads := by omega
                    rw [hTeq, hc1] at hT
                    cases hT
                omega
          · cases hp : processFile env p res st with
            | mk X o =>
                rw [hp] at hc3 hc4 hc5
                simp only [] at hc3 hc4 hc5
                subst hc3
                show ((scanLoop env rest X).1).discovered ≤ T / 2 + 1
                refine ih X ?_ ?_
                · omega
                · intro j hj
                  rw [hc5] at hj
                  rcases Nat.lt_or_ge j st.reads with h | h
                  · exact hfalse j h
                  · rcases Nat.eq_or_lt_of_le h with h2 | h2
                    · rw [h2] at hc1
                      exact hc1
                    · have hj2 : j = st.reads + 1 := by omega
                      rw [hj2]
                      exact hc2

/-- With a token and no timeouts, the only fatal failure the event loop
can raise is `cancelled`. -/
theorem scanLoop_fail_kind (env : ScanEnv) (f : Nat → Bool)
    (hs : env.sched = some f) (hov : env.opts.overall_timeout = none)
    (hpb : env.opts.per_batch_timeout = none) :
    ∀ (evs : List WEvent) (st : RState) (fl : ScanFail),
      (scanLoop env evs st).2 = some fl → fl = ScanFail.cancelled := by
  intro evs
  induction evs with
  | nil =>
      intro st fl h
      simp only [scanLoop] at h
      exact Option.noConfusion h
  | cons ev rest ih =>
      intro st fl h
      cases ev with
      | werr p msg =>
          simp only [scanLoop] at h
          exact ih _ fl h
      | wfile p res =>
          simp only [scanLoop] at h
          rcases processFile_token_cases env f hs hov hpb p res st with
            ⟨hc1, hc2, hc3⟩ | ⟨hc1, hc2, hc3, hc4⟩ | ⟨hc1, hc2, hc3, hc4, hc5⟩
          · cases hp : processFile env p res st with
            | mk X o =>
                rw [hp] at h hc2
                simp only [] at hc2
                subst hc2
                have h2 : some ScanFail.cancelled = some fl := h
                exact (Option.some.inj h2).symm
          · cases hp : processFile env p res st with
            | mk X o =>
                rw [hp] at h hc3
                simp only [] at hc3
                subst hc3
                have h2 : some ScanFail.cancelled = some fl := h
                exact (Option.some.inj h2).symm
          · cases hp : processFile env p res st with
            | mk X o =>
                rw [hp] at h hc3
                simp only [] at hc3
                subst hc3
                exact ih X fl h

/-- A run of the event loop that completes without failure never saw the
token read `true`: every reading it performed came back `false`. -/
theorem scanLoop_complete_reads (env : ScanEnv) (f : Nat → Bool)
    (hs : env.sched = some f) (hov : env.opts.overall_timeout = none)
    (hpb : env.opts.per_batch_timeout = none) :
    ∀ (evs : List WEvent) (st : RState),
      st.reads = 2 * st.discovered →
      (∀ j, j < st.reads → f j = false) →
      (scanLoop env evs st).2 = none →
      ∀ j, j < ((scanLoop env evs st).1).reads → f j = false := by
  intro evs
  induction evs with
  | nil =>
      intro st hinv hfalse _ j hj
      simp only [scanLoop] at hj
      exact hfalse j hj
  | cons ev rest ih =>
      intro st hinv hfalse hnone j hj
      cases ev with
      | werr p msg =>
          simp only [scanLoop] at hnone hj
          have hrd := handleWalkError_rd env st p msg
          refine ih _ ?_ ?_ hnone j hj
          · rw [hrd.1, hrd.2]
            exact hinv
          · rw [hrd.1]
            exact hfalse
      | wfile p res =>
          simp only [scanLoop] at hnone hj
          rcases processFile_token_cases env f hs hov hpb p res st with
            ⟨hc1, hc2, hc3⟩ | ⟨hc1, hc2, hc3, hc4⟩ | ⟨hc1, hc2, hc3, hc4, hc5⟩
          · cases hp : processFile env p res st with
            | mk X o =>
                rw [hp] at hnone hc2
                simp only [] at hc2
                subst hc2
                exact Option.noConfusion hnone
          · cases hp : processFile env p res st with
            | mk X o =>
                rw [hp] at hnone hc3
                simp only [] at hc3
                subst hc3
                exact Option.noConfusion hnone
          · cases hp : processFile env p res st with
            | mk X o =>
                rw [hp] at hnone hj hc3 hc4 hc5
                simp only [] at hc3 hc4 hc5
                subst hc3
                refine ih X ?_ ?_ hnone j hj
                · omega
                · intro j2 hj2
                  rw [hc5] at hj2
                  rcases Nat.lt_or_ge j2 st.reads with h | h
                  · exact hfalse j2 h
                  · rcases Nat.eq_or_lt_of_le h with h2 | h2
                    · rw [h2] at hc1
                      exact hc1
                    · have hj3 : j2 = st.reads + 1 := by omega
                      rw [hj3]
                      exact hc2

/-- The tail of `scan_batches` passes the loop's failure through
unchanged and does not touch the token-read counter. -/
theorem scan_batches_tail (env : ScanEnv) (evs : List WEvent) :
    (scan_batches env evs).2 = (scanLoop env evs (initState env)).2 ∧
    ((scan_batches env evs).1).reads =
      ((scanLoop env evs (initState env)).1).reads := by
  unfold scan_batches
  cases hl : scanLoop env evs (initState env) with
  | mk stL o =>
      cases o with
      | some fl => exact ⟨rfl, rfl⟩
      | none =>
          have hfr : (flushPending stL).reads = stL.reads := by
            unfold flushPending
            split <;> simp
          simp only [readClock]
          generalize hS : flushPending stL = S at hfr ⊢
          constructor
          · simp [emit_progress]
          · repeat' split
            all_goals simp [emit_progress, hfr]

/-- The tail of `scan_batches` (final flush and progress event) does not
touch the discovered count. -/
theorem scan_batches_discovered (env : ScanEnv) (evs : List WEvent) :
    ((scan_batches env evs).1).discovered =
      ((scanLoop env evs (initState env)).1).discovered := by
  unfold scan_batches
  cases hl : scanLoop env evs (initState env) with
  | mk stL o =>
      cases o with
      | some fl => rfl
      | none =>
          have hfd : (flushPending stL).discovered = stL.discovered := by
            unfold flushPending
            split <;> simp
          simp only [readClock]
          generalize hS : flushPending stL = S at hfd ⊢
          repeat' split
          all_goals simp [emit_progress, hfd]

/-- **C9.**  Bounded cancellation latency: with a cancellation token and
no timeouts configured, if the token reads `true` at reading index `T`
then the whole scan call counts at most `T/2 + 1` files — the guard runs
before and after each file's stat/read (two readings per file), so at
most one file is processed beyond the point where the token first reads
`true`.  Moreover any fatal failure the call raises is the `cancelled`
kind, and a call that completes without failure never observed a `true`
reading at all. -/
theorem C9_thm (env : ScanEnv) (f : Nat → Bool) (evs : List WEvent) (T : Nat)
    (hs : env.sched = some f) (hov : env.opts.overall_timeout = none)
    (hpb : env.opts.per_batch_timeout = none)
    (hT : f T = true) :
    ((scan_batches env evs).1).discovered ≤ T / 2 + 1 ∧
    (∀ fl, (scan_batches env evs).2 = some fl → fl = ScanFail.cancelled) ∧
    ((scan_batches env evs).2 = none →
      ∀ j, j < ((scan_batches env evs).1).reads → f j = false) := by
  refine ⟨?_, ?_, ?_⟩
  · rw [scan_batches_discovered]
    exact scanLoop_cancel_bound env f T hs hov hpb hT evs (initState env)
      (by simp [initState]) (by intro j hj; simp [initState] at hj)
  · intro fl h
    rw [(scan_batches_tail env evs).1] at h
    exact scanLoop_fail_kind env f hs hov hpb evs (initState env) fl h
  · intro hnone j hj
    rw [(scan_batches_tail env evs).1] at hnone
    rw [(scan_batches_tail env evs).2] at hj
    exact scanLoop_complete_reads env f hs hov hpb evs (initState env)
      (by simp [initState]) (by intro j2 hj2; simp [initState] at hj2)
      hnone j hj

/-- Token schedule of the cancellation witness: reads `false` three
times, then `true` forever. -/
def c9f : Nat → Bool := fun i => decide (3 ≤ i)

/-- Scan environment of the cancellation witness: one root, the token
above, no timeouts, no callback. -/
def c9Env : ScanEnv :=
  { opts := { roots := ["r"] }, sched := some c9f, clock := fun i => i,
    hasCallback := false, shaText := fun s => s,
    guessMimeText := fun _ => false }

/-- World of the cancellation witness: four readable files under the
root, of which cancellation lets at most two be counted. -/
def c9World : List (String × FsNode) :=
  [("r", FsNode.dirOk "r"
      [FsNode.file "a.txt" (Except.ok { size := 1, mtime := 1, content := "a" }),
       FsNode.file "b.txt" (Except.ok { size := 1, mtime := 2, content := "b" }),
       FsNode.file "c.txt" (Except.ok { size := 1, mtime := 3, content := "c" }),
       FsNode.file "d.txt" (Except.ok { size := 1, mtime := 4, content := "d" })])]

/-- Witness for C9: with the token turning `true` at reading index 3, a
scan over four files counts at most `3 / 2 + 1 = 2` of them, and any
failure it raises is the `cancelled` kind. -/
theorem C9_witness :
    c9Env.sched = some c9f ∧ c9Env.opts.overall_timeout = none ∧
    c9Env.opts.per_batch_timeout = none ∧ c9f 3 = true ∧
    ((scanRun noPat c9Env c9World).1).discovered ≤ 3 / 2 + 1 ∧
    (∀ fl, (scanRun noPat c9Env c9World).2 = some fl →
      fl = ScanFail.cancelled) :=
  ⟨rfl, rfl, rfl, by decide,
   (C9_thm c9Env c9f (iter_files noPat c9Env.opts c9World) 3 rfl rfl rfl
     (by decide)).1,
   (C9_thm c9Env c9f (iter_files noPat c9Env.opts c9World) 3 rfl rfl rfl
     (by decide)).2.1⟩

end LogiMaster
